import Mathlib

set_option linter.unusedVariables false

/-!
Verification of the attribute/keyword validators of a JSON-schema validator
(`src/lib/attribute.js`).  JavaScript values are embedded as the inductive
type `JSValue`; numbers are modelled as integers (no claim under study
depends on non-integer arithmetic).  Stateful JS code is embedded by explicit
state passing, and code that can `throw` returns `Except JErr`.

The orchestrator (`validator.js`), the `helpers` module
(`ValidatorResult`, `SchemaError`, `deepCompareStrict`, `isFormat`, the
context type) and the JS builtins (`RegExp`, `JSON.stringify`) are not part
of `src/`; they are modelled from the specification where needed, or taken
as parameters (`Builtins`).
-/

/-- A JavaScript/JSON-like value.  Objects are insertion-ordered key/value
lists with unique keys; `undefined` is JavaScript `undefined`. -/
inductive JSValue where
  | undefined : JSValue
  | null : JSValue
  | boolean : Bool → JSValue
  | number : Int → JSValue
  | str : String → JSValue
  | arr : List JSValue → JSValue
  | obj : List (String × JSValue) → JSValue

/-- JavaScript truthiness: `undefined`, `null`, `false`, `0` and `""` are
falsy, everything else is truthy. -/
def truthy : JSValue → Bool
  | .undefined => false
  | .null => false
  | .boolean b => b
  | .number n => n != 0
  | .str s => !s.isEmpty
  | .arr _ => true
  | .obj _ => true

/-- The JavaScript `typeof` operator (note `typeof null` is `"object"`). -/
def typeOf : JSValue → String
  | .undefined => "undefined"
  | .null => "object"
  | .boolean _ => "boolean"
  | .number _ => "number"
  | .str _ => "string"
  | .arr _ => "object"
  | .obj _ => "object"

/-- `v === undefined`. -/
def isUndefined : JSValue → Bool
  | .undefined => true
  | _ => false

/-- `v === null`. -/
def isNull : JSValue → Bool
  | .null => true
  | _ => false

/-- `v instanceof Array`. -/
def isArr : JSValue → Bool
  | .arr _ => true
  | _ => false

/-- The type registry's `object` test: a plain object (not `null`, not an
array, not a primitive). -/
def isObjType : JSValue → Bool
  | .obj _ => true
  | _ => false

/-- `v instanceof Object` (arrays and plain objects in this model). -/
def isInstanceOfObject : JSValue → Bool
  | .arr _ => true
  | .obj _ => true
  | _ => false

/-- Property access `v[k]` with a string key: first matching key of an
object; index access on arrays and strings; `undefined` otherwise. -/
def jsGet : JSValue → String → JSValue
  | .obj fields, k =>
    match fields.find? (fun kv => kv.1 == k) with
    | some kv => kv.2
    | none => .undefined
  | .arr xs, k =>
    match (List.range xs.length).find? (fun i => toString i == k) with
    | some i => xs.getD i .undefined
    | none => .undefined
  | .str s, k =>
    match (List.range s.length).find? (fun i => toString i == k) with
    | some i => .str (String.mk ((s.data.drop i).take 1))
    | none => .undefined
  | _, _ => .undefined

/-- `Object.keys(v)` for values on which it does not throw: own enumerable
keys of an object, index strings for arrays and strings, `[]` for the other
primitives (`Object.keys` boxes them). -/
def jsKeys : JSValue → List String
  | .obj fields => fields.map Prod.fst
  | .arr xs => (List.range xs.length).map toString
  | .str s => (List.range s.length).map toString
  | _ => []

/-- `hasOwnProperty` on a plain object's field list. -/
def hasOwnField (fields : List (String × JSValue)) (k : String) : Bool :=
  fields.any (fun kv => kv.1 == k)

mutual

/-- String coercion (`'' + v` / `v.toString()`):  arrays join their
elements with `,`, `null`/`undefined` elements becoming empty; objects
print as `[object Object]`. -/
def jsToString : JSValue → String
  | .undefined => "undefined"
  | .null => "null"
  | .boolean true => "true"
  | .boolean false => "false"
  | .number n => toString n
  | .str s => s
  | .arr xs => String.intercalate "," (jsToStringElems xs)
  | .obj _ => "[object Object]"

def jsToStringElems : List JSValue → List String
  | [] => []
  | x :: xs =>
    (if isUndefined x || isNull x then "" else jsToString x) :: jsToStringElems xs

end

/-- Numeric coercion (`Number(v)`), `none` standing for `NaN`.  Strings are
parsed as optionally signed decimal integers; the empty string is `0`. -/
def parseIntStr (s : String) : Option Int :=
  let t := s.trim
  if t.isEmpty then some 0
  else
    let (sign, digits) :=
      if t.startsWith "-" then ((-1 : Int), t.drop 1) else (1, t)
    if digits.isEmpty || !digits.data.all Char.isDigit then none
    else some (sign * (digits.data.foldl (fun acc c => acc * 10 + (c.toNat - '0'.toNat)) 0 : Nat))

def jsToNumber : JSValue → Option Int
  | .undefined => none
  | .null => some 0
  | .boolean true => some 1
  | .boolean false => some 0
  | .number n => some n
  | .str s => parseIntStr s
  | .arr xs => parseIntStr (jsToString (.arr xs))
  | .obj _ => none

/-- Loose equality with `0` (`v == 0`), as used by the `divisibleBy` /
`multipleOf` guards. -/
def looseEqZero (v : JSValue) : Bool :=
  match v with
  | .number n => n == 0
  | .boolean b => !b
  | .str s => parseIntStr s == some 0
  | .arr xs => parseIntStr (jsToString (.arr xs)) == some 0
  | _ => false

/-- `s.indexOf(pat) > -1`: `pat` occurs as a substring of `s`. -/
def strContains (s pat : String) : Bool :=
  (List.range (s.length + 1)).any fun i =>
    pat.data == (s.data.drop i).take pat.length

mutual

/-- Size measure used for termination of the deep-comparison and
`removeNot` recursions. -/
def jsSize : JSValue → Nat
  | .undefined => 1
  | .null => 1
  | .boolean _ => 1
  | .number _ => 1
  | .str _ => 1
  | .arr xs => 1 + jsSizeList xs
  | .obj fields => 1 + jsSizeFields fields

def jsSizeList : List JSValue → Nat
  | [] => 0
  | x :: xs => jsSize x + 1 + jsSizeList xs

def jsSizeFields : List (String × JSValue) → Nat
  | [] => 0
  | kv :: rest => jsSize kv.2 + 1 + jsSizeFields rest

end

mutual

/-- Modelled from the spec: the deep equality the spec describes (§4.6,
used by `uniqueItems` and `enum`): "strict structural equality
(order-independent key comparison for objects, recursive for nested
structures, exact type+value equality for scalars)".  The source of
`helpers.deepCompareStrict` is not under `src/`.  Objects compare equal
when they have the same number of keys and every key of the first maps to a
deep-equal value in the second. -/
def deepCompareStrict : JSValue → JSValue → Bool
  | .arr xs, .arr ys => xs.length == ys.length && deepCompareList xs ys
  | .arr _, _ => false
  | _, .arr _ => false
  | .obj fs, .obj gs =>
    fs.length == gs.length && deepCompareFields fs (.obj gs)
  | .obj _, _ => false
  | _, .obj _ => false
  | .undefined, .undefined => true
  | .null, .null => true
  | .boolean a, .boolean b => a == b
  | .number a, .number b => a == b
  | .str a, .str b => a == b
  | _, _ => false

def deepCompareList : List JSValue → List JSValue → Bool
  | [], _ => true
  | _ :: _, [] => false
  | x :: xs, y :: ys => deepCompareStrict x y && deepCompareList xs ys

def deepCompareFields : List (String × JSValue) → JSValue → Bool
  | [], _ => true
  | kv :: rest, g => deepCompareStrict kv.2 (jsGet g kv.1) && deepCompareFields rest g

end

/-- `_.isEqual` (lodash, an external dependency).  On this JSON-like value
domain (no `NaN`, `-0`, dates or functions) lodash's deep structural
equality coincides with the strict deep comparison above. -/
def isEqualJS (a b : JSValue) : Bool := deepCompareStrict a b

/-- A thrown JavaScript error: a `SchemaError` (malformed schema), a
`TypeError` (e.g. property access on `null`), or stack exhaustion (the spec
§5 prescribes "fail on stack exhaustion" for unbounded recursion). -/
inductive JErr where
  | schemaError : String → JErr
  | typeError : String → JErr
  | stackOverflow : JErr

/-- `Object.keys(v)` where `v` may be `null`/`undefined`, in which case
JavaScript throws a `TypeError`. -/
def jsKeysThrow : JSValue → Except JErr (List String)
  | .undefined => .error (.typeError "Cannot convert undefined to object")
  | .null => .error (.typeError "Cannot convert null to object")
  | v => .ok (jsKeys v)

/-- `schema[p] = value` on an object's field list: overwrite the first
occurrence of `p` in place, else append (JS insertion order). -/
def assignField (fields : List (String × JSValue)) (k : String) (v : JSValue) :
    List (String × JSValue) :=
  if hasOwnField fields k then
    fields.map (fun kv => if kv.1 == k then (kv.1, v) else kv)
  else fields ++ [(k, v)]

/-- `delete schema[k]`. -/
def deleteField (fields : List (String × JSValue)) (k : String) :
    List (String × JSValue) :=
  fields.filter (fun kv => kv.1 != k)

/-- `cloneDeep` (lodash): in the pure embedding a deep clone is the value
itself; what matters is that `removeNot` is applied to this copy and its
result is never written back into the schema it was cloned from. -/
def cloneDeep (v : JSValue) : JSValue := v

mutual

/-- `removeNot` (src/lib/attribute.js:69-87): remove the first `not` found
in `schema` (depth-first over `Object.keys`), hoisting the negated schema's
properties into the node and deleting the `not` wrapper.  Mutation is made
explicit: the returned value is the post-mutation schema.  `typeof schema
=== 'object'` also holds for `null` and arrays; `null.hasOwnProperty`
throws a `TypeError`, as does `Object.keys(schema.not)` when the `not`
value is `null`/`undefined`. -/
def removeNot : JSValue → Except JErr (Bool × JSValue)
  | .null => .error (.typeError "Cannot read properties of null")
  | .obj fields =>
    if hasOwnField fields "not" then
      match jsKeysThrow (jsGet (.obj fields) "not") with
      | .error e => .error e
      | .ok notKeys =>
        let notVal := jsGet (.obj fields) "not"
        let assigned := notKeys.foldl
          (fun fs k => assignField fs k (jsGet notVal k)) fields
        .ok (true, .obj (deleteField assigned "not"))
    else
      match removeNotFields fields with
      | .error e => .error e
      | .ok (b, fields2) => .ok (b, .obj fields2)
  | .arr xs =>
    match removeNotList xs with
    | .error e => .error e
    | .ok (b, xs2) => .ok (b, .arr xs2)
  | v => .ok (false, v)

def removeNotFields : List (String × JSValue) →
    Except JErr (Bool × List (String × JSValue))
  | [] => .ok (false, [])
  | (k, v) :: rest =>
    match removeNot v with
    | .error e => .error e
    | .ok (true, v2) => .ok (true, (k, v2) :: rest)
    | .ok (false, _) =>
      match removeNotFields rest with
      | .error e => .error e
      | .ok (b, rest2) => .ok (b, (k, v) :: rest2)

def removeNotList : List JSValue → Except JErr (Bool × List JSValue)
  | [] => .ok (false, [])
  | x :: xs =>
    match removeNot x with
    | .error e => .error e
    | .ok (true, x2) => .ok (true, x2 :: xs)
    | .ok (false, _) =>
      match removeNotList xs with
      | .error e => .error e
      | .ok (b, xs2) => .ok (b, x :: xs2)

end

/-- The four shapes `helpers.isFormat` can return: `true` (conforms),
`false`, a `RegExp`, or a diagnostic string. -/
inductive FormatResult where
  | isOk : FormatResult
  | notOk : FormatResult
  | regexp : String → FormatResult
  | msg : String → FormatResult

/-- JavaScript builtins and external collaborators the validators call but
whose implementations live outside `src/`: `RegExp(pattern).test(s)`,
`helpers.isFormat(str, schema.format)` and `JSON.stringify`.  They are
parameters of the embedding. -/
structure Builtins where
  regexTest : String → String → Bool
  isFormat : String → JSValue → FormatResult
  jsonStringify : JSValue → String

/-- Modelled from the spec: a validation error record (§3): message and the
dot/bracket property path of the failing sub-instance. -/
structure VError where
  property : String
  message : String

/-- Modelled from the spec: the validation context (§3) — the current
property path.  The visited-pairs stack is unused by every claim and by the
code under `src/` and is omitted. -/
structure Ctx where
  propertyPath : String

/-- Modelled from the spec: `ctx.makeChild(schema, name)` for a property
name: extend the dot-addressed path. -/
def Ctx.makeChildProp (ctx : Ctx) (name : String) : Ctx :=
  ⟨if ctx.propertyPath.isEmpty then name else ctx.propertyPath ++ "." ++ name⟩

/-- Modelled from the spec: `ctx.makeChild(schema, i)` for a numeric index:
extend the bracket-addressed path (§3: `body.items[2].name`). -/
def Ctx.makeChildIdx (ctx : Ctx) (i : Nat) : Ctx :=
  ⟨ctx.propertyPath ++ "[" ++ toString i ++ "]"⟩

/-- Modelled from the spec: `ValidatorResult` (§3) reduced to what the
attribute validators observe: the ordered error list.  `valid` is derived:
true iff the error list is empty.  (The result's `instance` field and the
default-writeback mechanism are not modelled: `validator.js` is not under
`src/` and no claim concerns defaults.) -/
structure VR where
  errors : List VError

def VR.valid (r : VR) : Bool := r.errors.isEmpty

/-- `result.addError(message)` — the error is addressed at the result's
context path; an explicit `property` overrides it (used by `required`,
`not` and `testAdditionalProperty`). -/
def VR.addError (r : VR) (ctx : Ctx) (message : String) : VR :=
  ⟨r.errors ++ [⟨ctx.propertyPath, message⟩]⟩

def VR.addErrorAt (r : VR) (property message : String) : VR :=
  ⟨r.errors ++ [⟨property, message⟩]⟩

/-- `result.importErrors(res)`: append the child result's errors
(merging, not nesting). -/
def VR.importVR (r : VR) (child : VR) : VR :=
  ⟨r.errors ++ child.errors⟩

/-- The three return shapes of an attribute validator (§7): `null` (no
failure), a bare message string, or a structured result. -/
inductive VOut where
  | nullOut : VOut
  | strOut : String → VOut
  | vrOut : VR → VOut

/-- The orchestrator's normalization of the three validator return shapes
into the accumulating result (§7): a string becomes one error at the
current path, a structured result is imported. -/
def normalizeOut (ctx : Ctx) (acc : VR) : VOut → VR
  | .nullOut => acc
  | .strOut m => acc.addError ctx m
  | .vrOut r => acc.importVR r

/-- The errors a single validator's return contributes to the result. -/
def outErrors (ctx : Ctx) (out : VOut) : List VError :=
  (normalizeOut ctx ⟨[]⟩ out).errors

/-- The callback type of `this.validateSchema` (the orchestrator, an
external collaborator of attribute.js). -/
def VS : Type := JSValue → JSValue → Ctx → Except JErr VR

/-- Property access `v[k]` where `v` may be `null`/`undefined`: JavaScript
throws a `TypeError`. -/
def jsGetThrow : JSValue → String → Except JErr JSValue
  | .null, _ => .error (.typeError "Cannot read properties of null")
  | .undefined, _ => .error (.typeError "Cannot read properties of undefined")
  | v, k => .ok (jsGet v k)

/-- The subschema label used in combinator messages:
`(v.id && ('<'+v.id+'>')) || (v.title && JSON.stringify(v.title)) ||
(v['$ref'] && ('<'+v['$ref']+'>')) || deflt`. -/
def subschemaId (B : Builtins) (deflt : String) (v : JSValue) : String :=
  if truthy (jsGet v "id") then "<" ++ jsToString (jsGet v "id") ++ ">"
  else if truthy (jsGet v "title") then B.jsonStringify (jsGet v "title")
  else if truthy (jsGet v "$ref") then "<" ++ jsToString (jsGet v "$ref") ++ ">"
  else deflt

/-- `subschemaId`, with reading a property of a `null`/`undefined` member
throwing. -/
def subschemaIdThrow (B : Builtins) (deflt : String) (v : JSValue) :
    Except JErr String :=
  match v with
  | .null => .error (.typeError "Cannot read properties of null")
  | .undefined => .error (.typeError "Cannot read properties of undefined")
  | _ => .ok (subschemaId B deflt v)

/-- The inner `areSubschemasMutuallyExclusive(subschemaName)` of
`hasMutuallyExclusiveDependencies` (src/lib/attribute.js:103-122):
`dependency2[name]` must be truthy; both dependency sub-schemas are
deep-cloned, `removeNot` is applied to the clones, at least one side must
actually have had a `not`, and the post-strip clones must be `_.isEqual`. -/
def areSubschemasMutuallyExclusive (d1 d2 : JSValue) (name : String) :
    Except JErr Bool :=
  if !truthy (jsGet d2 name) then .ok false
  else
    match removeNot (cloneDeep (jsGet d1 name)) with
    | .error e => .error e
    | .ok (subschema1HasNot, s1) =>
      match removeNot (cloneDeep (jsGet d2 name)) with
      | .error e => .error e
      | .ok (subschema2HasNot, s2) =>
        if !subschema1HasNot && !subschema2HasNot then .ok false
        else .ok (isEqualJS s1 s2)

/-- `Object.keys(dependency1).every(areSubschemasMutuallyExclusive)` —
`every` short-circuits on the first `false`. -/
def medEvery (d1 d2 : JSValue) : List String → Except JErr Bool
  | [] => .ok true
  | k :: ks =>
    match areSubschemasMutuallyExclusive d1 d2 k with
    | .error e => .error e
    | .ok false => .ok false
    | .ok true => medEvery d1 d2 ks

/-- `hasMutuallyExclusiveDependencies` (src/lib/attribute.js:95-129) with
the mutable store made explicit: the second component of the result is the
post-call state of the `oneOf` array.  `removeNot` only ever runs on the
deep clones, so the array is returned unchanged. -/
def hasMutuallyExclusiveDependenciesSt (oneOf : List JSValue) :
    Except JErr (Bool × List JSValue) :=
  if oneOf.length != 2 then .ok (false, oneOf)
  else
    match jsGetThrow (oneOf.getD 0 .undefined) "dependencies" with
    | .error e => .error e
    | .ok dependency1 =>
      if !truthy dependency1 then .ok (false, oneOf)
      else
        match jsGetThrow (oneOf.getD 1 .undefined) "dependencies" with
        | .error e => .error e
        | .ok dependency2 =>
          if !truthy dependency2 then .ok (false, oneOf)
          else
            match medEvery dependency1 dependency2 (jsKeys dependency1) with
            | .error e => .error e
            | .ok b => .ok (b, oneOf)

/-- `hasMutuallyExclusiveDependencies` as the boolean test `validateOneOf`
branches on. -/
def hasMutuallyExclusiveDependencies (oneOf : List JSValue) :
    Except JErr Bool :=
  match hasMutuallyExclusiveDependenciesSt oneOf with
  | .error e => .error e
  | .ok (b, _) => .ok b

/-- `hasNoDependencies` (src/lib/attribute.js:136-138): no subschema has an
object-typed `dependencies` value.  Reading `subschema.dependencies` throws
on `null`/`undefined` members (`some` short-circuits). -/
def hasNoDependencies : List JSValue → Except JErr Bool
  | [] => .ok true
  | s :: rest =>
    match jsGetThrow s "dependencies" with
    | .error e => .error e
    | .ok dep =>
      if typeOf dep == "object" then .ok false
      else hasNoDependencies rest

/-- `v === true`. -/
def isTrueLit : JSValue → Bool
  | .boolean true => true
  | _ => false

/-- `v === false`. -/
def isFalseLit : JSValue → Bool
  | .boolean false => true
  | _ => false

/-- `v === ''`. -/
def isEmptyStrLit : JSValue → Bool
  | .str s => s.isEmpty
  | _ => false

/-- The elements of an array value (callers have already checked
`instanceof Array`). -/
def asArrList : JSValue → List JSValue
  | .arr xs => xs
  | _ => []

/-- JS `a >= b` after numeric coercion of the right side; comparison with
`NaN` is false. -/
def jsGE (a : Int) (b : Option Int) : Bool :=
  match b with
  | some m => a ≥ m
  | none => false

def jsLE (a : Int) (b : Option Int) : Bool :=
  match b with
  | some m => a ≤ m
  | none => false

def jsGT (a : Int) (b : Option Int) : Bool :=
  match b with
  | some m => a > m
  | none => false

def jsLT (a : Int) (b : Option Int) : Bool :=
  match b with
  | some m => a < m
  | none => false

/-- Modelled from the spec: `this.testType` of the orchestrator (§4.1),
which is not under `src/`.  Recognizes the primitive kind names; `any` is
true except for `undefined`; a schema-valued type recurses into full schema
validation and returns whether it passed.  (`date` never matches since the
JSON-like value domain has no date values; an unrecognized type name
matches nothing.) -/
def testType (vs : VS) (inst schema : JSValue) (ctx : Ctx) (t : JSValue) :
    Except JErr Bool :=
  match t with
  | .str "string" => .ok (match inst with | .str _ => true | _ => false)
  | .str "number" => .ok (match inst with | .number _ => true | _ => false)
  | .str "integer" => .ok (match inst with | .number _ => true | _ => false)
  | .str "boolean" => .ok (match inst with | .boolean _ => true | _ => false)
  | .str "array" => .ok (isArr inst)
  | .str "object" => .ok (isObjType inst)
  | .str "null" => .ok (isNull inst)
  | .str "any" => .ok (!isUndefined inst)
  | .obj fields =>
    match vs inst (.obj fields) ctx with
    | .error e => .error e
    | .ok r => .ok r.valid
  | _ => .ok false

/-- `types.some(this.testType.bind(...))` — `some` short-circuits. -/
def typesSome (vs : VS) (inst schema : JSValue) (ctx : Ctx) :
    List JSValue → Except JErr Bool
  | [] => .ok false
  | t :: ts =>
    match testType vs inst schema ctx t with
    | .error e => .error e
    | .ok true => .ok true
    | .ok false => typesSome vs inst schema ctx ts

/-- The display of one member of a union type in the `type` error message:
`v.id && ('<' + v.id + '>') || (v+'')`; property access on
`null`/`undefined` throws. -/
def typeDisplayThrow : JSValue → Except JErr String
  | .null => .error (.typeError "Cannot read properties of null")
  | .undefined => .error (.typeError "Cannot read properties of undefined")
  | v =>
    .ok (if truthy (jsGet v "id") then "<" ++ jsToString (jsGet v "id") ++ ">"
      else jsToString v)

def typeDisplayList : List JSValue → Except JErr (List String)
  | [] => .ok []
  | t :: ts =>
    match typeDisplayThrow t with
    | .error e => .error e
    | .ok s =>
      match typeDisplayList ts with
      | .error e => .error e
      | .ok ss => .ok (s :: ss)

/-- `validators.type` (src/lib/attribute.js:42-54). -/
def validateType (vs : VS) (inst schema : JSValue) (ctx : Ctx) :
    Except JErr VOut :=
  if isUndefined inst then .ok .nullOut
  else
    let types := match jsGet schema "type" with
      | .arr ts => ts
      | t => [t]
    match typesSome vs inst schema ctx types with
    | .error e => .error e
    | .ok true => .ok .nullOut
    | .ok false =>
      match typeDisplayList types with
      | .error e => .error e
      | .ok ds =>
        .ok (.strOut ((if types.length == 1 then "is not a " else "is none of ") ++
          String.intercalate "," ds))

/-- `schema.xxx.map(validateSchema.bind(this, instance, options, ctx))`. -/
def validateSchemaMap (vs : VS) (inst : JSValue) (ctx : Ctx) :
    List JSValue → Except JErr (List VR)
  | [] => .ok []
  | s :: rest =>
    match vs inst s ctx with
    | .error e => .error e
    | .ok r =>
      match validateSchemaMap vs inst ctx rest with
      | .error e => .error e
      | .ok rs => .ok (r :: rs)

/-- `validators.anyOf` (src/lib/attribute.js:148-171). -/
def validateAnyOf (vs : VS) (inst schema : JSValue) (ctx : Ctx) :
    Except JErr VOut :=
  if isUndefined inst then .ok .nullOut
  else if !isArr (jsGet schema "anyOf") then
    .error (.schemaError "anyOf must be an array")
  else
    match validateSchemaMap vs inst ctx (asArrList (jsGet schema "anyOf")) with
    | .error e => .error e
    | .ok results =>
      if results.any VR.valid then .ok .nullOut
      else .ok (.vrOut ⟨(results.map VR.errors).flatten⟩)

/-- The `forEach` of `validators.allOf`: a failing member contributes one
wrapping error followed by its imported errors. -/
def allOfLoop (vs : VS) (B : Builtins) (inst : JSValue) (ctx : Ctx) :
    List JSValue → VR → Except JErr VR
  | [], result => .ok result
  | v :: rest, result =>
    match vs inst v ctx with
    | .error e => .error e
    | .ok valid =>
      if valid.valid then allOfLoop vs B inst ctx rest result
      else
        match subschemaIdThrow B "<subschema>" v with
        | .error e => .error e
        | .ok msg =>
          allOfLoop vs B inst ctx rest
            ((result.addError ctx ("does not match allOf schema " ++ msg ++
              " with " ++ toString valid.errors.length ++ " error[s]:")).importVR valid)

/-- `validators.allOf` (src/lib/attribute.js:181-200). -/
def validateAllOf (vs : VS) (B : Builtins) (inst schema : JSValue) (ctx : Ctx) :
    Except JErr VOut :=
  if isUndefined inst then .ok .nullOut
  else if !isArr (jsGet schema "allOf") then
    .error (.schemaError "allOf must be an array")
  else
    match allOfLoop vs B inst ctx (asArrList (jsGet schema "allOf")) ⟨[]⟩ with
    | .error e => .error e
    | .ok r => .ok (.vrOut r)

/-- `isDependencyError` inside `validators.oneOf`:
`error.message.indexOf('dependency') > -1`. -/
def isDependencyError (e : VError) : Bool :=
  strContains e.message "dependency"

/-- The subschema labels of the `oneOf` generic message, with default
`[subschema i]`. -/
def oneOfIds (B : Builtins) : Nat → List JSValue → Except JErr (List String)
  | _, [] => .ok []
  | i, v :: rest =>
    match subschemaIdThrow B ("[subschema " ++ toString i ++ "]") v with
    | .error e => .error e
    | .ok s =>
      match oneOfIds B (i + 1) rest with
      | .error e => .error e
      | .ok ss => .ok (s :: ss)

/-- The mutually-exclusive-dependencies `forEach` of `validators.oneOf`: a
failing branch with no dependency-related error becomes the candidate
`validationResult`; a valid branch bumps `validCount`. -/
def oneOfMEDLoop (vs : VS) (inst : JSValue) (ctx : Ctx) :
    List JSValue → Option VR → Nat → Except JErr (Option VR × Nat)
  | [], validationResult, validCount => .ok (validationResult, validCount)
  | subschema :: rest, validationResult, validCount =>
    match vs inst subschema ctx with
    | .error e => .error e
    | .ok result =>
      if !result.valid then
        if !result.errors.any isDependencyError then
          oneOfMEDLoop vs inst ctx rest (some result) validCount
        else
          oneOfMEDLoop vs inst ctx rest validationResult validCount
      else oneOfMEDLoop vs inst ctx rest validationResult (validCount + 1)

/-- The generic counting path of `validators.oneOf`:
`schema.oneOf.filter(testSchema.bind(...)).length`. -/
def oneOfCountLoop (vs : VS) (inst : JSValue) (ctx : Ctx) :
    List JSValue → Except JErr Nat
  | [] => .ok 0
  | s :: rest =>
    match vs inst s ctx with
    | .error e => .error e
    | .ok r =>
      match oneOfCountLoop vs inst ctx rest with
      | .error e => .error e
      | .ok n => .ok (if r.valid then n + 1 else n)

/-- The final decision of `validators.oneOf`: `validCount` must be exactly
1, otherwise report the candidate `validationResult` if one was produced,
else the generic message. -/
def oneOfDecision (validationResult : Option VR) (validCount : Nat)
    (genericErrorMessage : String) : VOut :=
  if validCount != 1 then
    match validationResult with
    | some r => .vrOut r
    | none => .strOut genericErrorMessage
  else .nullOut

/-- `validators.oneOf` (src/lib/attribute.js:210-266). -/
def validateOneOf (vs : VS) (B : Builtins) (inst schema : JSValue) (ctx : Ctx) :
    Except JErr VOut :=
  if isUndefined inst then .ok .nullOut
  else if !isArr (jsGet schema "oneOf") then
    .error (.schemaError "oneOf must be an array")
  else
    let branches := asArrList (jsGet schema "oneOf")
    match oneOfIds B 0 branches with
    | .error e => .error e
    | .ok ids =>
      let genericErrorMessage :=
        "is not exactly one from " ++ String.intercalate "," ids
      match hasMutuallyExclusiveDependencies branches with
      | .error e => .error e
      | .ok true =>
        match oneOfMEDLoop vs inst ctx branches none 0 with
        | .error e => .error e
        | .ok (validationResult, validCount) =>
          .ok (oneOfDecision validationResult validCount genericErrorMessage)
      | .ok false =>
        match hasNoDependencies branches with
        | .error e => .error e
        | .ok true =>
          match validateSchemaMap vs inst ctx branches with
          | .error e => .error e
          | .ok results =>
            let validCount := (results.filter VR.valid).length
            let errors := (results.map VR.errors).flatten
            if validCount == 0 then
              .ok (oneOfDecision (some ⟨errors⟩) errors.length genericErrorMessage)
            else .ok (oneOfDecision none validCount genericErrorMessage)
        | .ok false =>
          match oneOfCountLoop vs inst ctx branches with
          | .error e => .error e
          | .ok validCount =>
            .ok (oneOfDecision none validCount genericErrorMessage)

/-- The `for (var property in properties)` loop of `validators.properties`
(default writeback of `res.instance` is not modelled, see `VR`). -/
def propertiesLoop (vs : VS) (inst properties : JSValue) (ctx : Ctx) :
    List String → VR → Except JErr VR
  | [], result => .ok result
  | property :: rest, result =>
    match vs (jsGet inst property) (jsGet properties property)
        (ctx.makeChildProp property) with
    | .error e => .error e
    | .ok res => propertiesLoop vs inst properties ctx rest (result.importVR res)

/-- `validators.properties` (src/lib/attribute.js:276-287). -/
def validateProperties (vs : VS) (inst schema : JSValue) (ctx : Ctx) :
    Except JErr VOut :=
  if isUndefined inst || !isInstanceOfObject inst then .ok .nullOut
  else
    let properties :=
      if truthy (jsGet schema "properties") then jsGet schema "properties"
      else .obj []
    match propertiesLoop vs inst properties ctx (jsKeys properties) ⟨[]⟩ with
    | .error e => .error e
    | .ok r => .ok (.vrOut r)

/-- `testAdditionalProperty` (src/lib/attribute.js:296-308): skip keys
declared in `schema.properties`; `additionalProperties === false` produces
"does not exist in the schema" addressed at the bare key; otherwise the
value is validated against the `additionalProperties` sub-schema
(default `{}`). -/
def testAdditionalProperty (vs : VS) (inst schema : JSValue) (ctx : Ctx)
    (property : String) (result : VR) : Except JErr VR :=
  if truthy (jsGet schema "properties") &&
      !isUndefined (jsGet (jsGet schema "properties") property) then
    .ok result
  else if isFalseLit (jsGet schema "additionalProperties") then
    .ok (result.addErrorAt property "does not exist in the schema")
  else
    let additionalProperties :=
      if truthy (jsGet schema "additionalProperties") then
        jsGet schema "additionalProperties"
      else .obj []
    match vs (jsGet inst property) additionalProperties
        (ctx.makeChildProp property) with
    | .error e => .error e
    | .ok res => .ok (result.importVR res)

/-- The inner pattern loop of `validators.patternProperties`: try every
pattern against the key; each match clears `test` and validates the value
against that pattern's sub-schema. -/
def patternPropsInner (vs : VS) (B : Builtins) (inst patternProperties : JSValue)
    (ctx : Ctx) (property : String) :
    List String → Bool → VR → Except JErr (Bool × VR)
  | [], test, result => .ok (test, result)
  | pattern :: pats, test, result =>
    if !B.regexTest pattern property then
      patternPropsInner vs B inst patternProperties ctx property pats test result
    else
      match vs (jsGet inst property) (jsGet patternProperties pattern)
          (ctx.makeChildProp property) with
      | .error e => .error e
      | .ok res =>
        patternPropsInner vs B inst patternProperties ctx property pats false
          (result.importVR res)

/-- The outer key loop of `validators.patternProperties`: a key matching no
pattern falls through to `testAdditionalProperty`. -/
def patternPropsOuter (vs : VS) (B : Builtins) (inst schema patternProperties : JSValue)
    (ctx : Ctx) : List String → VR → Except JErr VR
  | [], result => .ok result
  | property :: props, result =>
    match patternPropsInner vs B inst patternProperties ctx property
        (jsKeys patternProperties) true result with
    | .error e => .error e
    | .ok (test, result2) =>
      if test then
        match testAdditionalProperty vs inst schema ctx property result2 with
        | .error e => .error e
        | .ok result3 =>
          patternPropsOuter vs B inst schema patternProperties ctx props result3
      else patternPropsOuter vs B inst schema patternProperties ctx props result2

/-- `validators.patternProperties` (src/lib/attribute.js:318-342). -/
def validatePatternProperties (vs : VS) (B : Builtins) (inst schema : JSValue)
    (ctx : Ctx) : Except JErr VOut :=
  if isUndefined inst then .ok .nullOut
  else if !isObjType inst then .ok .nullOut
  else
    let patternProperties :=
      if truthy (jsGet schema "patternProperties") then
        jsGet schema "patternProperties"
      else .obj []
    match patternPropsOuter vs B inst schema patternProperties ctx
        (jsKeys inst) ⟨[]⟩ with
    | .error e => .error e
    | .ok r => .ok (.vrOut r)

/-- The key loop of `validators.additionalProperties`. -/
def additionalPropsLoop (vs : VS) (inst schema : JSValue) (ctx : Ctx) :
    List String → VR → Except JErr VR
  | [], result => .ok result
  | property :: props, result =>
    match testAdditionalProperty vs inst schema ctx property result with
    | .error e => .error e
    | .ok r2 => additionalPropsLoop vs inst schema ctx props r2

/-- `validators.additionalProperties` (src/lib/attribute.js:352-364): when
`schema.patternProperties` is truthy the whole check is deferred to the
patternProperties pass. -/
def validateAdditionalProperties (vs : VS) (inst schema : JSValue) (ctx : Ctx) :
    Except JErr VOut :=
  if isUndefined inst then .ok .nullOut
  else if !isObjType inst then .ok .nullOut
  else if truthy (jsGet schema "patternProperties") then .ok .nullOut
  else
    match additionalPropsLoop vs inst schema ctx (jsKeys inst) ⟨[]⟩ with
    | .error e => .error e
    | .ok r => .ok (.vrOut r)

/-- `validators.minProperties` (src/lib/attribute.js:372-381). -/
def validateMinProperties (inst schema : JSValue) : VOut :=
  if !truthy inst || typeOf inst != "object" then .nullOut
  else if !jsGE ((jsKeys inst).length : Int) (jsToNumber (jsGet schema "minProperties")) then
    .strOut ("does not meet minimum property length of " ++
      jsToString (jsGet schema "minProperties"))
  else .nullOut

/-- `validators.maxProperties` (src/lib/attribute.js:389-398). -/
def validateMaxProperties (inst schema : JSValue) : VOut :=
  if !truthy inst || typeOf inst != "object" then .nullOut
  else if !jsLE ((jsKeys inst).length : Int) (jsToNumber (jsGet schema "maxProperties")) then
    .strOut ("does not meet maximum property length of " ++
      jsToString (jsGet schema "maxProperties"))
  else .nullOut

/-- The `instance.every` element loop of `validators.items`:
`(schema.items instanceof Array) ? (schema.items[i] || schema.additionalItems)
: schema.items`; an `undefined` item schema skips the element, a literal
`false` emits "additionalItems not permitted" and stops the scan. -/
def itemsLoop (vs : VS) (schema : JSValue) (ctx : Ctx) :
    List JSValue → Nat → VR → Except JErr VR
  | [], _, result => .ok result
  | value :: rest, i, result =>
    let items := match jsGet schema "items" with
      | .arr itemSchemas =>
        let it := itemSchemas.getD i .undefined
        if truthy it then it else jsGet schema "additionalItems"
      | other => other
    if isUndefined items then itemsLoop vs schema ctx rest (i + 1) result
    else if isFalseLit items then
      .ok (result.addError ctx "additionalItems not permitted")
    else
      match vs value items (ctx.makeChildIdx i) with
      | .error e => .error e
      | .ok res => itemsLoop vs schema ctx rest (i + 1) (result.importVR res)

/-- `validators.items` (src/lib/attribute.js:408-432). -/
def validateItems (vs : VS) (inst schema : JSValue) (ctx : Ctx) :
    Except JErr VOut :=
  match inst with
  | .arr values =>
    if !truthy (jsGet schema "items") then .ok (.vrOut ⟨[]⟩)
    else
      match itemsLoop vs schema ctx values 0 ⟨[]⟩ with
      | .error e => .error e
      | .ok r => .ok (.vrOut r)
  | _ => .ok .nullOut

/-- `validators.minimum` (src/lib/attribute.js:440-454). -/
def validateMinimum (inst schema : JSValue) : VOut :=
  match inst with
  | .number n =>
    let valid :=
      if truthy (jsGet schema "exclusiveMinimum") &&
          isTrueLit (jsGet schema "exclusiveMinimum") then
        jsGT n (jsToNumber (jsGet schema "minimum"))
      else jsGE n (jsToNumber (jsGet schema "minimum"))
    if !valid then
      .strOut ("must have a minimum value of " ++ jsToString (jsGet schema "minimum"))
    else .nullOut
  | _ => .nullOut

/-- `validators.maximum` (src/lib/attribute.js:462-476). -/
def validateMaximum (inst schema : JSValue) : VOut :=
  match inst with
  | .number n =>
    let valid :=
      if truthy (jsGet schema "exclusiveMaximum") &&
          isTrueLit (jsGet schema "exclusiveMaximum") then
        jsLT n (jsToNumber (jsGet schema "maximum"))
      else jsLE n (jsToNumber (jsGet schema "maximum"))
    if !valid then
      .strOut ("must have a maximum value of " ++ jsToString (jsGet schema "maximum"))
    else .nullOut
  | _ => .nullOut

/-- `instance / divisor % 1` is truthy (the quotient has a nonzero
fractional part, or is `NaN`/`Infinity`). -/
def fracNonzero (n : Int) (divisor : Option Int) : Bool :=
  match divisor with
  | some d => if d == 0 then true else decide (n % d ≠ 0)
  | none => true

/-- `validators.divisibleBy` (src/lib/attribute.js:486-499): a divisor
loosely equal to `0` raises a `SchemaError`. -/
def validateDivisibleBy (inst schema : JSValue) : Except JErr VOut :=
  match inst with
  | .number n =>
    if looseEqZero (jsGet schema "divisibleBy") then
      .error (.schemaError "divisibleBy cannot be zero")
    else if fracNonzero n (jsToNumber (jsGet schema "divisibleBy")) then
      .ok (.strOut ("is not " ++ jsToString (jsGet schema "divisibleBy")))
    else .ok .nullOut
  | _ => .ok .nullOut

/-- `validators.multipleOf` (src/lib/attribute.js:509-522). -/
def validateMultipleOf (inst schema : JSValue) : Except JErr VOut :=
  match inst with
  | .number n =>
    if looseEqZero (jsGet schema "multipleOf") then
      .error (.schemaError "multipleOf cannot be zero")
    else if fracNonzero n (jsToNumber (jsGet schema "multipleOf")) then
      .ok (.strOut ("is not " ++ jsToString (jsGet schema "multipleOf")))
    else .ok .nullOut
  | _ => .ok .nullOut

/-- The array-form loop of `validators.required`: each missing or `null`
named property produces its own "is required" error addressed at
`<parentPath>.<name>`. -/
def requiredArrayLoop (inst : JSValue) (ctx : Ctx) : List JSValue → VR → VR
  | [], result => result
  | n :: rest, result =>
    let nm := jsToString n
    if isUndefined (jsGet inst nm) || isNull (jsGet inst nm) then
      requiredArrayLoop inst ctx rest
        (result.addErrorAt
          ((if ctx.propertyPath != "" then ctx.propertyPath ++ "." else "") ++ nm)
          "is required")
    else requiredArrayLoop inst ctx rest result

/-- `validators.required` (src/lib/attribute.js:530-544). -/
def validateRequired (inst schema : JSValue) (ctx : Ctx) : VOut :=
  if isTrueLit (jsGet schema "required") && (isUndefined inst || isNull inst) then
    .strOut "is required"
  else if truthy inst && typeOf inst == "object" && isArr (jsGet schema "required") then
    .vrOut (requiredArrayLoop inst ctx (asArrList (jsGet schema "required")) ⟨[]⟩)
  else .nullOut

/-- `validators.pattern` (src/lib/attribute.js:552-560). -/
def validatePattern (B : Builtins) (inst schema : JSValue) : VOut :=
  if isUndefined inst || isNull inst ||
      (isEmptyStrLit inst && !truthy (jsGet schema "required")) then .nullOut
  else if !B.regexTest (jsToString (jsGet schema "pattern")) (jsToString inst) then
    .strOut ("does not match pattern " ++ jsToString (jsGet schema "pattern"))
  else .nullOut

/-- `validators.format` (src/lib/attribute.js:586-603): the three failing
return shapes of `helpers.isFormat` map to three message framings. -/
def validateFormat (B : Builtins) (inst schema : JSValue) : VOut :=
  if isUndefined inst || isNull inst ||
      (isEmptyStrLit inst && !truthy (jsGet schema "required")) then .nullOut
  else
    match B.isFormat (jsToString inst) (jsGet schema "format") with
    | .isOk => .nullOut
    | .regexp src =>
      .strOut ("does not conform to the \x27" ++ jsToString (jsGet schema "format") ++
        "\x27 format, based on pattern: /" ++ src ++ "/")
    | .msg s => .strOut s
    | .notOk =>
      .strOut ("does not conform to the \x27" ++ jsToString (jsGet schema "format") ++
        "\x27 format")

/-- `validators.minLength` (src/lib/attribute.js:611-619). -/
def validateMinLength (inst schema : JSValue) : VOut :=
  if isUndefined inst || isNull inst then .nullOut
  else if !jsGE ((jsToString inst).length : Int) (jsToNumber (jsGet schema "minLength")) then
    .strOut ("does not meet minimum length of " ++ jsToString (jsGet schema "minLength"))
  else .nullOut

/-- `validators.maxLength` (src/lib/attribute.js:627-635). -/
def validateMaxLength (inst schema : JSValue) : VOut :=
  if isUndefined inst || isNull inst then .nullOut
  else if !jsLE ((jsToString inst).length : Int) (jsToNumber (jsGet schema "maxLength")) then
    .strOut ("does not meet maximum length of " ++ jsToString (jsGet schema "maxLength"))
  else .nullOut

/-- `validators.minItems` (src/lib/attribute.js:643-651). -/
def validateMinItems (inst schema : JSValue) : VOut :=
  match inst with
  | .arr xs =>
    if !jsGE (xs.length : Int) (jsToNumber (jsGet schema "minItems")) then
      .strOut ("must contain at least " ++ jsToString (jsGet schema "minItems"))
    else .nullOut
  | _ => .nullOut

/-- `validators.maxItems` (src/lib/attribute.js:659-667). -/
def validateMaxItems (inst schema : JSValue) : VOut :=
  match inst with
  | .arr xs =>
    if !jsLE (xs.length : Int) (jsToNumber (jsGet schema "maxItems")) then
      .strOut ("does not meet maximum length of " ++ jsToString (jsGet schema "maxItems"))
    else .nullOut
  | _ => .nullOut

/-- `testArrays(v, i, a)`: scan the elements after position `i` for a
`deepCompareStrict` duplicate of `v`; true when none is found.  This exact
scan appears twice in the source, as an inner function of the first
`validators.uniqueItems` (line 682) and at module level (line 702). -/
def testArraysScan (v : JSValue) : List JSValue → Bool
  | [] => true
  | w :: rest => if deepCompareStrict v w then false else testArraysScan v rest

/-- `instance.every(testArrays)`: every element, compared against all later
elements. -/
def everyTestArrays : List JSValue → Bool
  | [] => true
  | v :: rest => testArraysScan v rest && everyTestArrays rest

/-- The first (shadowed) `validators.uniqueItems` definition
(src/lib/attribute.js:677-692): always returns a `ValidatorResult`. -/
def validateUniqueItemsFirst (inst : JSValue) (ctx : Ctx) : VOut :=
  match inst with
  | .arr xs =>
    if !everyTestArrays xs then .vrOut (VR.addError ⟨[]⟩ ctx "contains duplicate item")
    else .vrOut ⟨[]⟩
  | _ => .vrOut ⟨[]⟩

/-- The second `validators.uniqueItems` definition
(src/lib/attribute.js:717-726), the one left in the validator table:
returns a bare message string or `null`. -/
def validateUniqueItems (inst : JSValue) : VOut :=
  match inst with
  | .arr xs =>
    if !everyTestArrays xs then .strOut "contains duplicate item"
    else .nullOut
  | _ => .nullOut

/-- The string/array dependency form: every named sibling must be present.
Errors are addressed at the validator's own context path. -/
def depArrayLoop (inst : JSValue) (ctx : Ctx) (childPath : String) :
    List JSValue → VR → VR
  | [], result => result
  | prop :: rest, result =>
    if isUndefined (jsGet inst (jsToString prop)) then
      depArrayLoop inst ctx childPath rest
        (result.addError ctx ("property " ++ jsToString prop ++
          " not found, required by " ++ childPath))
    else depArrayLoop inst ctx childPath rest result

/-- The `for (var property in schema.dependencies)` loop of
`validators.dependencies`: keys absent from the instance are skipped; a
string dependency is wrapped in an array; a schema dependency re-validates
the whole enclosing instance and on failure wraps the imported errors under
"does not meet dependency required by <path>". -/
def dependenciesLoop (vs : VS) (inst deps : JSValue) (ctx : Ctx) :
    List String → VR → Except JErr VR
  | [], result => .ok result
  | property :: rest, result =>
    if isUndefined (jsGet inst property) then
      dependenciesLoop vs inst deps ctx rest result
    else
      let dep := jsGet deps property
      let childContext := ctx.makeChildProp property
      match (match dep with
        | .str s => some [JSValue.str s]
        | .arr xs => some xs
        | _ => none) with
      | some names =>
        dependenciesLoop vs inst deps ctx rest
          (depArrayLoop inst ctx childContext.propertyPath names result)
      | none =>
        match vs inst dep childContext with
        | .error e => .error e
        | .ok res =>
          if res.errors.length != 0 then
            dependenciesLoop vs inst deps ctx rest
              ((result.addError ctx ("does not meet dependency required by " ++
                childContext.propertyPath)).importVR res)
          else dependenciesLoop vs inst deps ctx rest result

/-- `validators.dependencies` (src/lib/attribute.js:736-766). -/
def validateDependencies (vs : VS) (inst schema : JSValue) (ctx : Ctx) :
    Except JErr VOut :=
  if !truthy inst || typeOf inst != "object" then .ok .nullOut
  else
    match dependenciesLoop vs inst (jsGet schema "dependencies") ctx
        (jsKeys (jsGet schema "dependencies")) ⟨[]⟩ with
    | .error e => .error e
    | .ok r => .ok (.vrOut r)

/-- `validators.enum` (src/lib/attribute.js:775-786): a non-array `enum`
raises a `SchemaError` before the undefined-instance guard. -/
def validateEnum (inst schema : JSValue) : Except JErr VOut :=
  if !isArr (jsGet schema "enum") then
    .error (.schemaError "enum expects an array")
  else if isUndefined inst || isNull inst ||
      (isEmptyStrLit inst && !truthy (jsGet schema "required")) then .ok .nullOut
  else if !(asArrList (jsGet schema "enum")).any (fun e => deepCompareStrict inst e) then
    .ok (.strOut ("is not one of enum values: " ++ jsToString (jsGet schema "enum")))
  else .ok .nullOut

/-- The `required` sub-case of `validators.not`: one "can not be present"
error per required property name, addressed at `<path>.<name>`. -/
def notRequiredLoop (ctx : Ctx) : List JSValue → VR → VR
  | [], result => result
  | requiredProp :: rest, result =>
    notRequiredLoop ctx rest
      (result.addErrorAt
        (if !ctx.propertyPath.isEmpty then
          ctx.propertyPath ++ "." ++ jsToString requiredProp
        else jsToString requiredProp)
        "can not be present")

/-- The `notTypes.forEach` loop of `validators.not`:
`schemaId = type && type.id && ('<' + type.id + '>') || type`. -/
def notTypesLoop (vs : VS) (inst schema : JSValue) (ctx : Ctx) :
    List JSValue → VR → Except JErr VR
  | [], result => .ok result
  | type :: rest, result =>
    match testType vs inst schema ctx type with
    | .error e => .error e
    | .ok matched =>
      if matched then
        if truthy (jsGet type "required") && isArr (jsGet type "required") then
          notTypesLoop vs inst schema ctx rest
            (notRequiredLoop ctx (asArrList (jsGet type "required")) result)
        else
          notTypesLoop vs inst schema ctx rest
            (result.addError ctx ("is of prohibited type " ++
              (if truthy type && truthy (jsGet type "id") then
                "<" ++ jsToString (jsGet type "id") ++ ">"
              else jsToString type)))
      else notTypesLoop vs inst schema ctx rest result

/-- `validators.not` = `validators.disallow` (src/lib/attribute.js:796-816). -/
def validateNot (vs : VS) (inst schema : JSValue) (ctx : Ctx) :
    Except JErr VOut :=
  if isUndefined inst then .ok .nullOut
  else
    let notTypes :=
      if truthy (jsGet schema "not") then jsGet schema "not"
      else jsGet schema "disallow"
    if !truthy notTypes then .ok .nullOut
    else
      let typesList := match notTypes with
        | .arr xs => xs
        | t => [t]
      match notTypesLoop vs inst schema ctx typesList ⟨[]⟩ with
      | .error e => .error e
      | .ok r => .ok (.vrOut r)

/-- Modelled from the spec: the orchestrator's keyword dispatch (§2) —
`validator.js` is not under `src/`.  Every recognized schema keyword
present on the schema node invokes the matching attribute validator from
src/lib/attribute.js (for `uniqueItems`, the second definition, which
overrides the first in the `validators` table); unrecognized keys are
ignored (§3). -/
def dispatchValidator (vs : VS) (B : Builtins) (key : String)
    (inst schema : JSValue) (ctx : Ctx) : Except JErr VOut :=
  match key with
  | "type" => validateType vs inst schema ctx
  | "anyOf" => validateAnyOf vs inst schema ctx
  | "allOf" => validateAllOf vs B inst schema ctx
  | "oneOf" => validateOneOf vs B inst schema ctx
  | "properties" => validateProperties vs inst schema ctx
  | "patternProperties" => validatePatternProperties vs B inst schema ctx
  | "additionalProperties" => validateAdditionalProperties vs inst schema ctx
  | "minProperties" => .ok (validateMinProperties inst schema)
  | "maxProperties" => .ok (validateMaxProperties inst schema)
  | "items" => validateItems vs inst schema ctx
  | "minimum" => .ok (validateMinimum inst schema)
  | "maximum" => .ok (validateMaximum inst schema)
  | "divisibleBy" => validateDivisibleBy inst schema
  | "multipleOf" => validateMultipleOf inst schema
  | "required" => .ok (validateRequired inst schema ctx)
  | "pattern" => .ok (validatePattern B inst schema)
  | "format" => .ok (validateFormat B inst schema)
  | "minLength" => .ok (validateMinLength inst schema)
  | "maxLength" => .ok (validateMaxLength inst schema)
  | "minItems" => .ok (validateMinItems inst schema)
  | "maxItems" => .ok (validateMaxItems inst schema)
  | "uniqueItems" => .ok (validateUniqueItems inst)
  | "dependencies" => validateDependencies vs inst schema ctx
  | "enum" => validateEnum inst schema
  | "not" => validateNot vs inst schema ctx
  | "disallow" => validateNot vs inst schema ctx
  | _ => .ok .nullOut

/-- The orchestrator's walk over the schema node's keys in declaration
order, normalizing each validator's return shape into the accumulating
result (§7). -/
def validateKeys (vs : VS) (B : Builtins) (inst schema : JSValue) (ctx : Ctx) :
    List String → VR → Except JErr VR
  | [], acc => .ok acc
  | key :: rest, acc =>
    match dispatchValidator vs B key inst schema ctx with
    | .error e => .error e
    | .ok out => validateKeys vs B inst schema ctx rest (normalizeOut ctx acc out)

/-- Modelled from the spec: the orchestrator `validateSchema`
(`validator.js`, not under `src/`).  A schema node with `required: true`
and an `undefined`/`null` instance short-circuits all other keyword checks
with a single "is required" error (§3); otherwise every recognized keyword
present is run in declaration order and the results merged (§2, §7).
Recursion depth is bounded by fuel, exhaustion modelling the prescribed
"fail on stack exhaustion" (§5).  A non-object schema has no recognized
keywords and yields an empty result.  (`$ref`/`extends` resolution and
default-writeback are external collaborators / features no claim touches
and are not modelled.) -/
def validate (B : Builtins) : Nat → JSValue → JSValue → Ctx → Except JErr VR
  | 0, _, _, _ => .error .stackOverflow
  | fuel + 1, inst, schema, ctx =>
    match schema with
    | .obj fields =>
      if isTrueLit (jsGet (.obj fields) "required") &&
          (isUndefined inst || isNull inst) then
        .ok ⟨[⟨ctx.propertyPath, "is required"⟩]⟩
      else
        validateKeys (validate B fuel) B inst (.obj fields) ctx
          (fields.map Prod.fst) ⟨[]⟩
    | _ => .ok ⟨[]⟩

/-- Escape of `"` and `\` for the simple JSON stringifier below. -/
def escapeJSONString (s : String) : String :=
  s.data.foldl
    (fun acc c =>
      acc ++ (if c.toNat == 34 then "\\\"" else if c.toNat == 92 then "\\\\" else String.mk [c]))
    ""

/-- A simple stringifier for scalar values, used only to instantiate the
`JSON.stringify` oracle in concrete computations (the real builtin is
external to the repository). -/
def jsonStringifyScalar : JSValue → String
  | .str s => "\"" ++ escapeJSONString s ++ "\""
  | .number n => toString n
  | .boolean true => "true"
  | .boolean false => "false"
  | .null => "null"
  | .undefined => "undefined"
  | v => jsToString v

/-- A concrete `Builtins` instantiation for closed computations.  The
regex oracle matches nothing and the format oracle accepts everything;
no closed computation below exercises them. -/
def builtinsModel : Builtins :=
  ⟨fun _ _ => false, fun _ _ => .isOk, jsonStringifyScalar⟩

/-- The root context: an empty property path. -/
def rootCtx : Ctx := ⟨""⟩

/-- A pure (non-throwing) sub-schema validator lifted into the callback
type: the combinator theorems below quantify over any branch validator that
completes normally. -/
def liftVS (f : JSValue → JSValue → Ctx → VR) : VS :=
  fun i s c => .ok (f i s c)

/-- The `oneOf` generic-message labels for object members (the non-throwing
trace of `oneOfIds`). -/
def oneOfIdsPure (B : Builtins) : Nat → List JSValue → List String
  | _, [] => []
  | i, v :: rest =>
    subschemaId B ("[subschema " ++ toString i ++ "]") v ::
      oneOfIdsPure B (i + 1) rest

/-- The generic `oneOf` failure message. -/
def oneOfGenericMessage (B : Builtins) (branches : List JSValue) : String :=
  "is not exactly one from " ++ String.intercalate "," (oneOfIdsPure B 0 branches)

/-- The errors the additionalProperties check contributes for one key, for
a pure sub-schema validator `f` (the functional reading of
`testAdditionalProperty`). -/
def additionalPropertyCheckErrors (f : JSValue → JSValue → Ctx → VR)
    (inst schema : JSValue) (ctx : Ctx) (property : String) : List VError :=
  if truthy (jsGet schema "properties") &&
      !isUndefined (jsGet (jsGet schema "properties") property) then []
  else if isFalseLit (jsGet schema "additionalProperties") then
    [⟨property, "does not exist in the schema"⟩]
  else
    (f (jsGet inst property)
      (if truthy (jsGet schema "additionalProperties") then
        jsGet schema "additionalProperties"
      else .obj [])
      (ctx.makeChildProp property)).errors

/-- Two `deepCompareStrict`-equal elements at distinct indices. -/
def hasDuplicatePair (xs : List JSValue) : Prop :=
  ∃ i j, i < j ∧ j < xs.length ∧
    deepCompareStrict (xs.getD i .undefined) (xs.getD j .undefined) = true

/-- The dependency keys shared by both branches' `dependencies` values. -/
def sharedDependencyKeys (d1 d2 : JSValue) : List String :=
  (jsKeys d1).filter (fun k => (jsKeys d2).contains k)

/-- The shape claim C3 states for the mutual-exclusion fast path, written
from the claim's words: exactly two branches, both declaring a
`dependencies` keyword, and for every dependency key shared by both
branches the not-strip on deep clones succeeds on at least one side with
structurally identical post-strip schemas.  (To be compared against the
source predicate `hasMutuallyExclusiveDependencies`.) -/
def c3SpecShape (oneOf : List JSValue) : Bool :=
  oneOf.length == 2 &&
  !isUndefined (jsGet (oneOf.getD 0 .undefined) "dependencies") &&
  !isUndefined (jsGet (oneOf.getD 1 .undefined) "dependencies") &&
  (sharedDependencyKeys (jsGet (oneOf.getD 0 .undefined) "dependencies")
      (jsGet (oneOf.getD 1 .undefined) "dependencies")).all (fun k =>
    match removeNot (cloneDeep (jsGet (jsGet (oneOf.getD 0 .undefined) "dependencies") k)),
        removeNot (cloneDeep (jsGet (jsGet (oneOf.getD 1 .undefined) "dependencies") k)) with
    | .ok (b1, s1), .ok (b2, s2) => (b1 || b2) && isEqualJS s1 s2
    | _, _ => false)

/-- The per-key mutual-exclusion condition: the key maps to a truthy value
in the second branch's dependencies, and the not-strip on deep clones
succeeds on at least one side with structurally identical post-strip
schemas. -/
def medKeyCond (d1 d2 : JSValue) (k : String) : Prop :=
  truthy (jsGet d2 k) = true ∧
  ∃ b1 s1 b2 s2,
    removeNot (cloneDeep (jsGet d1 k)) = .ok (b1, s1) ∧
    removeNot (cloneDeep (jsGet d2 k)) = .ok (b2, s2) ∧
    (b1 = true ∨ b2 = true) ∧ isEqualJS s1 s2 = true

/-- The amended characterization of the fast-path test: every own key of
the FIRST branch's dependencies must map to a truthy value in the SECOND
branch's dependencies (not merely the shared keys), "declaring" means the
`dependencies` value is truthy, and each such key must pass the not-strip
comparison on deep clones. -/
def c3AmendedCond (oneOf : List JSValue) : Prop :=
  oneOf.length = 2 ∧
  truthy (jsGet (oneOf.getD 0 .undefined) "dependencies") = true ∧
  truthy (jsGet (oneOf.getD 1 .undefined) "dependencies") = true ∧
  ∀ k ∈ jsKeys (jsGet (oneOf.getD 0 .undefined) "dependencies"),
    medKeyCond (jsGet (oneOf.getD 0 .undefined) "dependencies")
      (jsGet (oneOf.getD 1 .undefined) "dependencies") k

/-- A `not`-guarded dependency sub-schema, `{not: {required: ['r']}}`. -/
def notWrapperEx : JSValue := .obj [("not", .obj [("required", .arr [.str "r"])])]

/-- C1 counterexample: a one-branch `oneOf` whose only branch fails with a
single error. -/
def c1Branch : JSValue := .obj [("enum", .arr [.str "a"])]

def c1Schema : JSValue := .obj [("oneOf", .arr [c1Branch])]

/-- C2 counterexample: two branches with identical (hence litmus-passing)
`not`-guarded dependencies and differing enums; the instance violates the
dependency guard and both enums, so every branch fails with a mix of
dependency and non-dependency errors. -/
def c2Branch1 : JSValue :=
  .obj [("dependencies", .obj [("p", notWrapperEx)]),
        ("properties", .obj [("q", .obj [("enum", .arr [.str "1"])])])]

def c2Branch2 : JSValue :=
  .obj [("dependencies", .obj [("p", notWrapperEx)]),
        ("properties", .obj [("q", .obj [("enum", .arr [.str "2"])])])]

def c2Schema : JSValue := .obj [("oneOf", .arr [c2Branch1, c2Branch2])]

def c2Inst : JSValue :=
  .obj [("p", .number 1), ("r", .number 1), ("q", .str "5")]

def c2Result1 : VR :=
  ⟨[⟨"", "does not meet dependency required by p"⟩,
    ⟨"p.r", "can not be present"⟩,
    ⟨"q", "is not one of enum values: 1"⟩]⟩

def c2Result2 : VR :=
  ⟨[⟨"", "does not meet dependency required by p"⟩,
    ⟨"p.r", "can not be present"⟩,
    ⟨"q", "is not one of enum values: 2"⟩]⟩

/-- C3 counterexample: the first branch's dependencies carry an extra key
`b` absent from the second branch's; the single shared key `a` passes the
litmus comparison. -/
def c3xBranch1 : JSValue :=
  .obj [("dependencies", .obj [("a", notWrapperEx), ("b", notWrapperEx)])]

def c3xBranch2 : JSValue :=
  .obj [("dependencies", .obj [("a", notWrapperEx)])]

/-- The mutually-exclusive two-branch schema of the repository's test
suite (used as a witness input). -/
def medWitnessBranch1 : JSValue :=
  .obj [("dependencies", .obj [("prop1",
          .obj [("properties", .obj [("prop2",
            .obj [("required", .arr [.str "prop3"])])])])]),
        ("properties", .obj [("prop1", .obj [("enum", .arr [.str "1", .str "2"])])])]

def medWitnessBranch2 : JSValue :=
  .obj [("dependencies", .obj [("prop1",
          .obj [("properties", .obj [("prop2",
            .obj [("not", .obj [("required", .arr [.str "prop3"])])])])])]),
        ("properties", .obj [("prop1", .obj [("enum", .arr [.str "3", .str "4"])])])]

/-- A pure sub-schema validator that accepts everything (used to
instantiate the combinator theorems at concrete inputs). -/
def emptyVRF : JSValue → JSValue → Ctx → VR := fun _ _ _ => ⟨[]⟩

/-- A pure sub-schema validator accepting exactly the branches carrying an
`ok` key. -/
def c1WitnessF : JSValue → JSValue → Ctx → VR :=
  fun _ b _ => if truthy (jsGet b "ok") then ⟨[]⟩ else ⟨[⟨"", "nope"⟩]⟩

def c1wBranchOk : JSValue := .obj [("ok", .number 1)]

def c1wBranchBad : JSValue := .obj [("bad", .number 1)]

def c1wSchema : JSValue := .obj [("oneOf", .arr [c1wBranchOk, c1wBranchBad])]

/-- A pure sub-schema validator failing the first test-suite branch with a
non-dependency error and the second with a dependency-related one. -/
def c2WitnessF : JSValue → JSValue → Ctx → VR :=
  fun _ b _ =>
    if isEqualJS b medWitnessBranch1 then ⟨[⟨"", "bad value"⟩]⟩
    else ⟨[⟨"", "does not meet dependency guard"⟩]⟩

def c2wSchema : JSValue := .obj [("oneOf", .arr [medWitnessBranch1, medWitnessBranch2])]

/-- A pure sub-schema validator failing exactly the members that carry a
`title` (for the allOf witness). -/
def c6TestF : JSValue → JSValue → Ctx → VR :=
  fun _ m _ => if truthy (jsGet m "title") then ⟨[⟨"", "boom"⟩]⟩ else ⟨[]⟩

def c6Member1 : JSValue := .obj [("type", .str "string")]

def c6Member2 : JSValue := .obj [("title", .str "second")]

def c6Schema : JSValue := .obj [("allOf", .arr [c6Member1, c6Member2])]

/-- `Builtins` whose regex oracle matches every (pattern, string) pair. -/
def builtinsMatchAll : Builtins :=
  ⟨fun _ _ => true, fun _ _ => .isOk, jsonStringifyScalar⟩

def c7wSchema : JSValue :=
  .obj [("patternProperties", .obj [("pat", .obj [("minLength", .number 5)])]),
        ("additionalProperties", .boolean false)]

def c7wInst : JSValue := .obj [("x1", .number 1)]

def c8wSchema : JSValue :=
  .obj [("items", .arr [.obj [("type", .str "string")]]),
        ("additionalItems", .boolean false)]

def c10Obj1 : JSValue := .obj [("a", .number 1), ("b", .number 2)]

def c10Obj2 : JSValue := .obj [("b", .number 2), ("a", .number 1)]

/-- C4: for every keyword validator other than `required` (including every
key the orchestrator dispatches and, trivially, unrecognized keys), and
every well-formed schema (for `enum`: an array-valued `enum`), an
`undefined` instance contributes zero validation errors — the validator
returns the no-error shape. -/
theorem claim_C4_absence_neutrality (key : String) (vs : VS) (B : Builtins)
    (schema : JSValue) (ctx : Ctx)
    (hkey : key ≠ "required")
    (henum : key = "enum" → isArr (jsGet schema "enum") = true) :
    dispatchValidator vs B key .undefined schema ctx = .ok .nullOut := by
  unfold dispatchValidator
  split
  all_goals try rfl
  · exact absurd rfl hkey
  · have h2 := henum rfl
    unfold validateEnum
    rw [h2]
    rfl

/-- Witness for C4 at the `type` keyword and a concrete schema. -/
theorem claim_C4_witness :
    dispatchValidator (liftVS emptyVRF) builtinsModel "type" .undefined
      (.obj [("type", .str "string")]) rootCtx = .ok .nullOut :=
  claim_C4_absence_neutrality "type" (liftVS emptyVRF) builtinsModel
    (.obj [("type", .str "string")]) rootCtx (by decide)
    (fun h => absurd h (by decide))

/-- C5: malformed schemas raise a `SchemaError` for an applicable instance
instead of contributing entries to the validation result: a non-array
`enum` (for any instance), a non-array `anyOf`/`allOf`/`oneOf` (for a
defined instance), and a `divisibleBy`/`multipleOf` equal to zero (for a
number instance). -/
theorem claim_C5_malformed_schema_raises (vs : VS) (B : Builtins)
    (inst schema : JSValue) (ctx : Ctx) :
    (isArr (jsGet schema "enum") = false →
      validateEnum inst schema = .error (.schemaError "enum expects an array")) ∧
    (isUndefined inst = false → isArr (jsGet schema "anyOf") = false →
      validateAnyOf vs inst schema ctx = .error (.schemaError "anyOf must be an array")) ∧
    (isUndefined inst = false → isArr (jsGet schema "allOf") = false →
      validateAllOf vs B inst schema ctx = .error (.schemaError "allOf must be an array")) ∧
    (isUndefined inst = false → isArr (jsGet schema "oneOf") = false →
      validateOneOf vs B inst schema ctx = .error (.schemaError "oneOf must be an array")) ∧
    (∀ n : Int, jsGet schema "divisibleBy" = .number 0 →
      validateDivisibleBy (.number n) schema = .error (.schemaError "divisibleBy cannot be zero")) ∧
    (∀ n : Int, jsGet schema "multipleOf" = .number 0 →
      validateMultipleOf (.number n) schema = .error (.schemaError "multipleOf cannot be zero")) := by
  refine ⟨?_, ?_, ?_, ?_, ?_, ?_⟩
  · intro h; unfold validateEnum; rw [h]; rfl
  · intro h1 h2; unfold validateAnyOf; rw [h1, h2]; rfl
  · intro h1 h2; unfold validateAllOf; rw [h1, h2]; rfl
  · intro h1 h2; unfold validateOneOf; rw [h1, h2]; rfl
  · intro n h; unfold validateDivisibleBy; rw [h]; rfl
  · intro n h; unfold validateMultipleOf; rw [h]; rfl

/-- Witness for C5 at concrete malformed schemas. -/
theorem claim_C5_witness :
    validateEnum (.str "x") (.obj [("enum", .number 5)]) =
      .error (.schemaError "enum expects an array") ∧
    validateAnyOf (liftVS emptyVRF) (.str "x") (.obj [("anyOf", .number 5)]) rootCtx =
      .error (.schemaError "anyOf must be an array") ∧
    validateAllOf (liftVS emptyVRF) builtinsModel (.str "x") (.obj [("allOf", .number 5)]) rootCtx =
      .error (.schemaError "allOf must be an array") ∧
    validateOneOf (liftVS emptyVRF) builtinsModel (.str "x") (.obj [("oneOf", .number 5)]) rootCtx =
      .error (.schemaError "oneOf must be an array") ∧
    validateDivisibleBy (.number 3) (.obj [("divisibleBy", .number 0)]) =
      .error (.schemaError "divisibleBy cannot be zero") ∧
    validateMultipleOf (.number 3) (.obj [("multipleOf", .number 0)]) =
      .error (.schemaError "multipleOf cannot be zero") := by
  refine ⟨?_, ?_, ?_, ?_, ?_, ?_⟩
  · exact (claim_C5_malformed_schema_raises (liftVS emptyVRF) builtinsModel
      (.str "x") (.obj [("enum", .number 5)]) rootCtx).1 rfl
  · exact (claim_C5_malformed_schema_raises (liftVS emptyVRF) builtinsModel
      (.str "x") (.obj [("anyOf", .number 5)]) rootCtx).2.1 rfl rfl
  · exact (claim_C5_malformed_schema_raises (liftVS emptyVRF) builtinsModel
      (.str "x") (.obj [("allOf", .number 5)]) rootCtx).2.2.1 rfl rfl
  · exact (claim_C5_malformed_schema_raises (liftVS emptyVRF) builtinsModel
      (.str "x") (.obj [("oneOf", .number 5)]) rootCtx).2.2.2.1 rfl rfl
  · exact (claim_C5_malformed_schema_raises (liftVS emptyVRF) builtinsModel
      (.str "x") (.obj [("divisibleBy", .number 0)]) rootCtx).2.2.2.2.1 3 rfl
  · exact (claim_C5_malformed_schema_raises (liftVS emptyVRF) builtinsModel
      (.str "x") (.obj [("multipleOf", .number 0)]) rootCtx).2.2.2.2.2 3 rfl

/-- C9: the mutual-exclusion detection never changes the `oneOf` array it
is given — the post-call state equals the input for every run that
completes — while `removeNot` itself genuinely rewrites its (cloned)
argument, so the clone discipline is what protects the original. -/
theorem claim_C9_detection_preserves_schema :
    (∀ (oneOf : List JSValue) (b : Bool) (l : List JSValue),
        hasMutuallyExclusiveDependenciesSt oneOf = .ok (b, l) → l = oneOf) ∧
    (∃ s t : JSValue, removeNot (cloneDeep s) = .ok (true, t) ∧ t ≠ s) := by
  constructor
  · intro oneOf b l h
    unfold hasMutuallyExclusiveDependenciesSt at h
    repeat' split at h
    all_goals simp_all
  · refine ⟨notWrapperEx, .obj [("required", .arr [.str "r"])], rfl, ?_⟩
    intro h
    simp [notWrapperEx] at h

/-- Witness for C9 at the test-suite `oneOf` pair, on which the detection
succeeds and returns the array unchanged. -/
theorem claim_C9_witness :
    hasMutuallyExclusiveDependenciesSt [medWitnessBranch1, medWitnessBranch2] =
      .ok (true, [medWitnessBranch1, medWitnessBranch2]) ∧
    [medWitnessBranch1, medWitnessBranch2] = [medWitnessBranch1, medWitnessBranch2] :=
  ⟨rfl, claim_C9_detection_preserves_schema.1
    [medWitnessBranch1, medWitnessBranch2] true
    [medWitnessBranch1, medWitnessBranch2] rfl⟩

/-- The inner `testArrays` scan fails exactly when some later element is a
`deepCompareStrict` duplicate of `v`. -/
theorem testArraysScan_false_iff (v : JSValue) (ys : List JSValue) :
    testArraysScan v ys = false ↔
      ∃ j, j < ys.length ∧ deepCompareStrict v (ys.getD j .undefined) = true := by
  induction ys with
  | nil =>
    constructor
    · intro h; exact absurd h (by simp [testArraysScan])
    · rintro ⟨j, hj, _⟩; simp at hj
  | cons w rest ih =>
    simp only [testArraysScan]
    by_cases h : deepCompareStrict v w = true
    · simp only [h, if_true]
      constructor
      · intro _; exact ⟨0, by simp, by simpa using h⟩
      · intro _; trivial
    · rw [if_neg (by simpa using h), ih]
      constructor
      · rintro ⟨j, hj, hd⟩
        exact ⟨j + 1, by simp; omega, by simpa using hd⟩
      · rintro ⟨j, hj, hd⟩
        cases j with
        | zero => simp at hd; exact absurd hd h
        | succ k =>
          refine ⟨k, ?_, by simpa using hd⟩
          simp at hj; omega

/-- `instance.every(testArrays)` fails exactly on a duplicate pair at
distinct indices. -/
theorem everyTestArrays_false_iff (xs : List JSValue) :
    everyTestArrays xs = false ↔ hasDuplicatePair xs := by
  induction xs with
  | nil =>
    constructor
    · intro h; exact absurd h (by simp [everyTestArrays])
    · rintro ⟨i, j, hij, hj, _⟩; simp at hj
  | cons v rest ih =>
    simp only [everyTestArrays, Bool.and_eq_false_iff]
    constructor
    · intro h
      rcases h with hs | he
      · obtain ⟨j, hj, hd⟩ := (testArraysScan_false_iff v rest).mp hs
        exact ⟨0, j + 1, by omega, by simp; omega, by simpa using hd⟩
      · obtain ⟨i, j, hij, hj, hd⟩ := ih.mp he
        exact ⟨i + 1, j + 1, by omega, by simp; omega, by simpa using hd⟩
    · rintro ⟨i, j, hij, hj, hd⟩
      cases i with
      | zero =>
        cases j with
        | zero => omega
        | succ k =>
          left
          refine (testArraysScan_false_iff v rest).mpr ⟨k, ?_, by simpa using hd⟩
          simp at hj; omega
      | succ i2 =>
        cases j with
        | zero => omega
        | succ k =>
          right
          refine ih.mpr ⟨i2, k, by omega, ?_, by simpa using hd⟩
          simp at hj; omega

/-- C10: the two `validators.uniqueItems` definitions are
validity-equivalent — they contribute identical error lists on every
instance — and each reports the single "contains duplicate item" error iff
the instance is an array with two `deepCompareStrict`-equal elements at
distinct indices, and nothing otherwise (including every non-array
instance). -/
theorem claim_C10_uniqueItems_equivalent (inst : JSValue) (ctx : Ctx) :
    outErrors ctx (validateUniqueItemsFirst inst ctx) =
      outErrors ctx (validateUniqueItems inst) ∧
    (∀ xs, inst = .arr xs →
      ((outErrors ctx (validateUniqueItems inst) =
          [⟨ctx.propertyPath, "contains duplicate item"⟩]) ↔ hasDuplicatePair xs)) ∧
    (isArr inst = false → outErrors ctx (validateUniqueItems inst) = []) := by
  refine ⟨?_, ?_, ?_⟩
  · cases inst <;>
      simp [validateUniqueItemsFirst, validateUniqueItems, outErrors,
        normalizeOut, VR.addError, VR.importVR]
    case arr xs =>
      by_cases h : everyTestArrays xs <;>
        simp [h, outErrors, normalizeOut, VR.addError, VR.importVR]
  · intro xs hx
    subst hx
    by_cases h : everyTestArrays xs
    · simp [validateUniqueItems, h, outErrors, normalizeOut]
      intro hd
      exact absurd ((everyTestArrays_false_iff xs).mpr hd) (by simp [h])
    · have hd := (everyTestArrays_false_iff xs).mp (by simpa using h)
      simp [validateUniqueItems, h, outErrors, normalizeOut, VR.addError, hd]
  · intro h
    cases inst <;> simp_all [validateUniqueItems, outErrors, normalizeOut, isArr]

/-- Witness for C10: the order-independent duplicate pair
`[{a:1,b:2}, {b:2,a:1}]` is reported by the effective `uniqueItems`. -/
theorem claim_C10_witness :
    outErrors rootCtx (validateUniqueItems (.arr [c10Obj1, c10Obj2])) =
      [⟨"", "contains duplicate item"⟩] :=
  ((claim_C10_uniqueItems_equivalent (.arr [c10Obj1, c10Obj2]) rootCtx).2.1
    [c10Obj1, c10Obj2] rfl).mpr ⟨0, 1, by omega, by simp, by rfl⟩

/-- For an object member the combinator label never throws. -/
theorem subschemaIdThrow_obj (B : Builtins) (d : String) (v : JSValue)
    (h : isObjType v = true) :
    subschemaIdThrow B d v = .ok (subschemaId B d v) := by
  cases v <;> simp_all [isObjType, subschemaIdThrow]

/-- The allOf member loop, characterized for a pure sub-schema validator:
each failing member contributes its wrapping error followed by its own
errors, in member order. -/
theorem allOfLoop_lift (f : JSValue → JSValue → Ctx → VR) (B : Builtins)
    (inst : JSValue) (ctx : Ctx) :
    ∀ (members : List JSValue) (acc : VR), members.all isObjType = true →
      allOfLoop (liftVS f) B inst ctx members acc =
        .ok ⟨acc.errors ++ (members.map (fun m =>
          if (f inst m ctx).valid then []
          else (⟨ctx.propertyPath, "does not match allOf schema " ++
              subschemaId B "<subschema>" m ++ " with " ++
              toString (f inst m ctx).errors.length ++ " error[s]:"⟩ : VError) ::
            (f inst m ctx).errors)).flatten⟩
  | [], acc, _ => by simp [allOfLoop]
  | m :: rest, acc, hobj => by
    have hm : isObjType m = true := by
      simp only [List.all_cons, Bool.and_eq_true] at hobj; exact hobj.1
    have hrest : rest.all isObjType = true := by
      simp only [List.all_cons, Bool.and_eq_true] at hobj; exact hobj.2
    simp only [allOfLoop, liftVS]
    by_cases hv : (f inst m ctx).valid
    · rw [if_pos hv]
      rw [allOfLoop_lift f B inst ctx rest acc hrest]
      simp [hv]
    · rw [if_neg hv, subschemaIdThrow_obj B _ m hm]
      dsimp only
      rw [allOfLoop_lift f B inst ctx rest _ hrest]
      simp [hv, VR.addError, VR.importVR]

/-- C6: for an array-valued `allOf` (with object members) and a defined
instance, each failing member contributes exactly one wrapping error
"does not match allOf schema <id> with N error[s]:" — with N the member's
error count and <id> the id / JSON-quoted title / $ref / `<subschema>`
preference chain — immediately followed by that member's imported errors;
validating members contribute nothing. -/
theorem claim_C6_allOf_wrapping (f : JSValue → JSValue → Ctx → VR) (B : Builtins)
    (inst schema : JSValue) (members : List JSValue) (ctx : Ctx)
    (hundef : isUndefined inst = false)
    (hall : jsGet schema "allOf" = .arr members)
    (hobj : members.all isObjType = true) :
    validateAllOf (liftVS f) B inst schema ctx =
      .ok (.vrOut ⟨(members.map (fun m =>
        if (f inst m ctx).valid then []
        else (⟨ctx.propertyPath, "does not match allOf schema " ++
            subschemaId B "<subschema>" m ++ " with " ++
            toString (f inst m ctx).errors.length ++ " error[s]:"⟩ : VError) ::
          (f inst m ctx).errors)).flatten⟩) := by
  unfold validateAllOf
  rw [hundef, hall]
  simp only [isArr, Bool.not_true, if_false, Bool.false_eq_true, asArrList]
  rw [allOfLoop_lift f B inst ctx members ⟨[]⟩ hobj]
  simp

/-- Witness for C6: a two-member allOf where only the titled second member
fails with one error yields exactly the wrapping error (quoting the title)
followed by that error. -/
theorem claim_C6_witness :
    validateAllOf (liftVS c6TestF) builtinsModel (.str "x") c6Schema rootCtx =
      .ok (.vrOut ⟨[⟨"", "does not match allOf schema \"second\" with 1 error[s]:"⟩,
        ⟨"", "boom"⟩]⟩) := by
  rw [claim_C6_allOf_wrapping c6TestF builtinsModel (.str "x") c6Schema
    [c6Member1, c6Member2] rootCtx rfl rfl rfl]
  rfl
/-- A filtered list is empty exactly when no element passes the test. -/
theorem filter_isEmpty_eq_all_not {α : Type} (p : α → Bool) (l : List α) :
    (l.filter p).isEmpty = l.all (fun a => !p a) := by
  induction l with
  | nil => rfl
  | cons a rest ih =>
    by_cases h : p a <;> simp_all [List.filter_cons]

/-- The per-key pattern loop, characterized for a pure sub-schema
validator: the `test` flag survives iff no pattern matched the key, and the
accumulated errors are those of the matching patterns' sub-schemas, in
pattern order. -/
theorem patternPropsInner_lift (f : JSValue → JSValue → Ctx → VR) (B : Builtins)
    (inst pp : JSValue) (ctx : Ctx) (property : String) :
    ∀ (pats : List String) (test : Bool) (acc : VR),
      patternPropsInner (liftVS f) B inst pp ctx property pats test acc =
        .ok (test && pats.all (fun p => !B.regexTest p property),
          ⟨acc.errors ++ ((pats.filter (fun p => B.regexTest p property)).map
            (fun p => (f (jsGet inst property) (jsGet pp p)
              (ctx.makeChildProp property)).errors)).flatten⟩)
  | [], test, acc => by simp [patternPropsInner]
  | p :: rest, test, acc => by
    simp only [patternPropsInner, liftVS]
    by_cases hq : B.regexTest p property
    · rw [if_neg (by simp [hq])]
      rw [patternPropsInner_lift f B inst pp ctx property rest false _]
      simp [hq, VR.importVR, List.filter_cons]
    · rw [if_pos (by simp [hq])]
      rw [patternPropsInner_lift f B inst pp ctx property rest test acc]
      simp [hq, List.filter_cons]

/-- `testAdditionalProperty` appends exactly the functional
`additionalPropertyCheckErrors` for the key. -/
theorem testAdditionalProperty_lift (f : JSValue → JSValue → Ctx → VR)
    (inst schema : JSValue) (ctx : Ctx) (property : String) (acc : VR) :
    testAdditionalProperty (liftVS f) inst schema ctx property acc =
      .ok ⟨acc.errors ++ additionalPropertyCheckErrors f inst schema ctx property⟩ := by
  unfold testAdditionalProperty additionalPropertyCheckErrors
  by_cases h1 : (truthy (jsGet schema "properties") &&
      !isUndefined (jsGet (jsGet schema "properties") property)) = true
  · rw [if_pos h1, if_pos h1]
    simp
  · rw [if_neg h1, if_neg h1]
    by_cases h2 : isFalseLit (jsGet schema "additionalProperties") = true
    · rw [if_pos h2, if_pos h2]
      simp [VR.addErrorAt]
    · rw [if_neg h2, if_neg h2]
      simp [liftVS, VR.importVR]

/-- The patternProperties key loop: a key with at least one matching
pattern contributes the matching sub-schema validations only; a key with
no matching pattern contributes the additionalProperties check. -/
theorem patternPropsOuter_lift (f : JSValue → JSValue → Ctx → VR) (B : Builtins)
    (inst schema pp : JSValue) (ctx : Ctx) :
    ∀ (props : List String) (acc : VR),
      patternPropsOuter (liftVS f) B inst schema pp ctx props acc =
        .ok ⟨acc.errors ++ (props.map (fun property =>
          if ((jsKeys pp).filter (fun p => B.regexTest p property)).isEmpty then
            additionalPropertyCheckErrors f inst schema ctx property
          else (((jsKeys pp).filter (fun p => B.regexTest p property)).map
            (fun p => (f (jsGet inst property) (jsGet pp p)
              (ctx.makeChildProp property)).errors)).flatten)).flatten⟩
  | [], acc => by simp [patternPropsOuter]
  | property :: rest, acc => by
    simp only [patternPropsOuter]
    rw [patternPropsInner_lift f B inst pp ctx property (jsKeys pp) true acc]
    dsimp only
    rw [Bool.true_and,
      ← filter_isEmpty_eq_all_not (fun p => B.regexTest p property) (jsKeys pp)]
    by_cases hmatch : ((jsKeys pp).filter (fun p => B.regexTest p property)).isEmpty = true
    · rw [if_pos hmatch]
      have hnil : (jsKeys pp).filter (fun p => B.regexTest p property) = [] := by
        cases hh : (jsKeys pp).filter (fun p => B.regexTest p property) <;> simp_all
      rw [hnil]
      rw [testAdditionalProperty_lift f inst schema ctx property _]
      dsimp only
      rw [patternPropsOuter_lift f B inst schema pp ctx rest _]
      rw [List.map_cons, if_pos hmatch]
      simp
    · rw [if_neg hmatch]
      rw [patternPropsOuter_lift f B inst schema pp ctx rest _]
      rw [List.map_cons, if_neg hmatch]
      simp

/-- C7: when the schema declares an object-valued `patternProperties`, the
standalone additionalProperties validator contributes no errors for any
instance; in the patternProperties pass over an object instance, every own
key is tested against every pattern, a key matching at least one pattern
is validated only against the matching patterns' sub-schemas (accumulating
all their errors), and only a key matching zero patterns is subjected to
the additionalProperties check. -/
theorem claim_C7_patternProperties_routing (f : JSValue → JSValue → Ctx → VR) (B : Builtins)
    (schema : JSValue) (ctx : Ctx)
    (hpp : isObjType (jsGet schema "patternProperties") = true) :
    (∀ inst, validateAdditionalProperties (liftVS f) inst schema ctx = .ok .nullOut) ∧
    (∀ fields, validatePatternProperties (liftVS f) B (.obj fields) schema ctx =
      .ok (.vrOut ⟨((jsKeys (.obj fields)).map (fun property =>
        if ((jsKeys (jsGet schema "patternProperties")).filter
            (fun p => B.regexTest p property)).isEmpty then
          additionalPropertyCheckErrors f (.obj fields) schema ctx property
        else (((jsKeys (jsGet schema "patternProperties")).filter
            (fun p => B.regexTest p property)).map
          (fun p => (f (jsGet (.obj fields) property)
            (jsGet (jsGet schema "patternProperties") p)
            (ctx.makeChildProp property)).errors)).flatten)).flatten⟩)) := by
  have htr : truthy (jsGet schema "patternProperties") = true := by
    cases hx : jsGet schema "patternProperties" <;> simp_all [isObjType, truthy]
  constructor
  · intro inst
    unfold validateAdditionalProperties
    by_cases h1 : isUndefined inst = true
    · rw [if_pos h1]
    · rw [if_neg h1]
      by_cases h2 : isObjType inst = true
      · rw [if_neg (by simp [h2]), if_pos htr]
      · rw [if_pos (by simp [h2])]
  · intro fields
    unfold validatePatternProperties
    rw [if_neg (by simp [isUndefined]), if_neg (by simp [isObjType])]
    rw [if_pos htr]
    dsimp only
    rw [patternPropsOuter_lift f B (.obj fields) schema
      (jsGet schema "patternProperties") ctx (jsKeys (.obj fields)) ⟨[]⟩]
    simp

/-- Witness for C7: with `additionalProperties:false` and a
pattern-matching key, neither validator flags the key. -/
theorem claim_C7_witness :
    validateAdditionalProperties (liftVS emptyVRF) c7wInst c7wSchema rootCtx = .ok .nullOut ∧
    validatePatternProperties (liftVS emptyVRF) builtinsMatchAll c7wInst c7wSchema rootCtx =
      .ok (.vrOut ⟨[]⟩) := by
  constructor
  · exact (claim_C7_patternProperties_routing emptyVRF builtinsMatchAll c7wSchema rootCtx rfl).1 c7wInst
  · rw [show c7wInst = JSValue.obj [("x1", .number 1)] from rfl]
    rw [(claim_C7_patternProperties_routing emptyVRF builtinsMatchAll c7wSchema rootCtx rfl).2 [("x1", .number 1)]]
    rfl
/-- The element loop of `validators.items` under positional `items` with
`additionalItems: false`, characterized for a pure sub-schema validator:
when the array extends past the items list, the elements covered by the
list are each validated against their positional sub-schema, the first
element beyond it yields the single "additionalItems not permitted" error,
and the scan stops there. -/
theorem itemsLoop_overflow (f : JSValue → JSValue → Ctx → VR)
    (schema : JSValue) (ctx : Ctx) (iss : List JSValue)
    (hitems : jsGet schema "items" = .arr iss)
    (haddl : jsGet schema "additionalItems" = .boolean false)
    (hobj : iss.all isObjType = true) :
    ∀ (values : List JSValue) (i : Nat) (acc : VR),
      i ≤ iss.length → iss.length < i + values.length →
      itemsLoop (liftVS f) schema ctx values i acc =
        .ok ⟨acc.errors ++ ((List.range (iss.length - i)).map (fun k =>
          (f (values.getD k .undefined) (iss.getD (i + k) .undefined)
            (ctx.makeChildIdx (i + k))).errors)).flatten ++
          [⟨ctx.propertyPath, "additionalItems not permitted"⟩]⟩
  | [], i, acc => by
    intro h1 h2
    simp at h2
    omega
  | value :: rest, i, acc => by
    intro h1 h2
    simp only [itemsLoop, hitems]
    by_cases hlt : i < iss.length
    · have hmem : iss.getD i JSValue.undefined ∈ iss := by
        rw [List.getD_eq_getElem iss .undefined hlt]
        exact List.getElem_mem hlt
      have hobji : isObjType (iss.getD i JSValue.undefined) = true :=
        List.all_eq_true.mp hobj _ hmem
      obtain ⟨fs, hit⟩ : ∃ fs, iss.getD i JSValue.undefined = .obj fs := by
        revert hobji
        cases iss.getD i JSValue.undefined <;> intro hobji
        case obj fs2 => exact ⟨fs2, rfl⟩
        all_goals exact absurd hobji (by simp [isObjType])
      rw [hit]
      rw [if_pos (show truthy (.obj fs) = true from rfl)]
      rw [if_neg (show ¬(isUndefined (.obj fs) = true) by simp [isUndefined])]
      rw [if_neg (show ¬(isFalseLit (.obj fs) = true) by simp [isFalseLit])]
      dsimp only [liftVS]
      rw [itemsLoop_overflow f schema ctx iss hitems haddl hobj rest (i + 1) _
        (by omega) (by simp at h2 ⊢; omega)]
      have hdecomp : (List.range (iss.length - i)).map (fun k =>
          (f ((value :: rest).getD k .undefined) (iss.getD (i + k) .undefined)
            (ctx.makeChildIdx (i + k))).errors) =
          (f value (iss.getD i .undefined) (ctx.makeChildIdx i)).errors ::
          (List.range (iss.length - (i + 1))).map (fun k =>
            (f (rest.getD k .undefined) (iss.getD (i + 1 + k) .undefined)
              (ctx.makeChildIdx (i + 1 + k))).errors) := by
        rw [show iss.length - i = (iss.length - (i + 1)) + 1 by omega,
          List.range_succ_eq_map, List.map_cons, List.map_map]
        congr 1
        apply List.map_congr_left
        intro a ha
        have he : i + (a + 1) = i + 1 + a := by omega
        simp [List.getD_cons_succ, he]
      rw [hdecomp, hit]
      simp [VR.importVR]
  -- done pos
    · have hi : i = iss.length := by omega
      rw [List.getD_eq_default iss .undefined (by omega), haddl]
      rw [show iss.length - i = 0 by omega]
      simp [truthy, isUndefined, isFalseLit, VR.addError]

/-- C8: for an array instance longer than a positional (object-valued)
`items` list with `additionalItems: false`, the result is exactly the
errors of the first `items.length` elements followed by a single
"additionalItems not permitted" error: no element after the first overflow
is scanned or reported. -/
theorem claim_C8_additionalItems_short_circuit (f : JSValue → JSValue → Ctx → VR)
    (xs iss : List JSValue) (schema : JSValue) (ctx : Ctx)
    (hitems : jsGet schema "items" = .arr iss)
    (haddl : jsGet schema "additionalItems" = .boolean false)
    (hobj : iss.all isObjType = true)
    (hover : iss.length < xs.length) :
    validateItems (liftVS f) (.arr xs) schema ctx =
      .ok (.vrOut ⟨((List.range iss.length).map (fun k =>
        (f (xs.getD k .undefined) (iss.getD k .undefined) (ctx.makeChildIdx k)).errors)).flatten ++
        [⟨ctx.propertyPath, "additionalItems not permitted"⟩]⟩) := by
  simp only [validateItems]
  rw [hitems]
  rw [if_neg (show ¬((!truthy (.arr iss)) = true) by simp [truthy])]
  rw [itemsLoop_overflow f schema ctx iss hitems haddl hobj xs 0 ⟨[]⟩
    (by omega) (by omega)]
  simp

/-- Witness for C8: a 3-element array against a 1-schema items list
reports exactly one "additionalItems not permitted" error. -/
theorem claim_C8_witness :
    validateItems (liftVS emptyVRF) (.arr [.str "a", .str "b", .str "c"])
      c8wSchema rootCtx =
      .ok (.vrOut ⟨[⟨"", "additionalItems not permitted"⟩]⟩) := by
  rw [claim_C8_additionalItems_short_circuit emptyVRF [.str "a", .str "b", .str "c"]
    [.obj [("type", .str "string")]] c8wSchema rootCtx rfl rfl rfl (by decide)]
  rfl
/-- Property access on an object value never throws. -/
theorem jsGetThrow_obj (v : JSValue) (k : String) (h : isObjType v = true) :
    jsGetThrow v k = .ok (jsGet v k) := by
  cases v <;> simp_all [isObjType, jsGetThrow]

/-- For object branches the generic-message labels never throw. -/
theorem oneOfIds_pure (B : Builtins) :
    ∀ (i : Nat) (branches : List JSValue), branches.all isObjType = true →
      oneOfIds B i branches = .ok (oneOfIdsPure B i branches)
  | _, [], _ => rfl
  | i, v :: rest, hobj => by
    have hv : isObjType v = true := by
      simp only [List.all_cons, Bool.and_eq_true] at hobj; exact hobj.1
    have hrest : rest.all isObjType = true := by
      simp only [List.all_cons, Bool.and_eq_true] at hobj; exact hobj.2
    simp only [oneOfIds, oneOfIdsPure]
    rw [subschemaIdThrow_obj B _ v hv]
    dsimp only
    rw [oneOfIds_pure B (i + 1) rest hrest]

/-- Object branches without object-typed `dependencies` satisfy
`hasNoDependencies`. -/
theorem hasNoDependencies_of (branches : List JSValue)
    (hobj : branches.all isObjType = true)
    (hnodep : branches.all (fun b => typeOf (jsGet b "dependencies") != "object") = true) :
    hasNoDependencies branches = .ok true := by
  induction branches with
  | nil => rfl
  | cons b rest ih =>
    simp only [List.all_cons, Bool.and_eq_true] at hobj hnodep
    simp only [hasNoDependencies]
    rw [jsGetThrow_obj b "dependencies" hobj.1]
    dsimp only
    rw [if_neg (by simpa using hnodep.1)]
    exact ih hobj.2 hnodep.2

/-- Mapping a pure sub-schema validator over the branches. -/
theorem validateSchemaMap_lift (f : JSValue → JSValue → Ctx → VR)
    (inst : JSValue) (ctx : Ctx) :
    ∀ branches : List JSValue,
      validateSchemaMap (liftVS f) inst ctx branches =
        .ok (branches.map (fun b => f inst b ctx))
  | [] => rfl
  | b :: rest => by
    simp only [validateSchemaMap, liftVS]
    rw [validateSchemaMap_lift f inst ctx rest]
    rfl

/-- C1 (amended): for a `oneOf` array of object branches in which no
branch declares an object-valued `dependencies` keyword AND the
mutual-exclusion detection does not (vacuously) succeed, and a defined
instance: the validator reports no error iff exactly one branch validates
with zero errors, or zero branches validate and the branches' concatenated
error total is exactly one (`validCount` is reused as the error count);
when zero branches validate and the total differs from one it reports a
single aggregate failure whose error list is the concatenation of every
branch's errors in branch order; when more than one branch validates it
reports the generic "is not exactly one from <ids>" message. -/
theorem claim_C1_amended (f : JSValue → JSValue → Ctx → VR) (B : Builtins)
    (inst schema : JSValue) (branches : List JSValue) (ctx : Ctx)
    (hundef : isUndefined inst = false)
    (hbr : jsGet schema "oneOf" = .arr branches)
    (hobj : branches.all isObjType = true)
    (hnodep : branches.all (fun b => typeOf (jsGet b "dependencies") != "object") = true)
    (hmed : hasMutuallyExclusiveDependencies branches = .ok false) :
    validateOneOf (liftVS f) B inst schema ctx =
      .ok (
        if ((branches.map (fun b => f inst b ctx)).filter VR.valid).length == 1 then
          .nullOut
        else if ((branches.map (fun b => f inst b ctx)).filter VR.valid).length == 0 then
          (if ((branches.map (fun b => f inst b ctx)).map VR.errors).flatten.length == 1 then
            .nullOut
          else .vrOut ⟨((branches.map (fun b => f inst b ctx)).map VR.errors).flatten⟩)
        else .strOut (oneOfGenericMessage B branches)) := by
  unfold validateOneOf
  rw [hundef, hbr]
  rw [if_neg (show ¬(false = true) by simp)]
  rw [if_neg (show ¬((!isArr (.arr branches)) = true) by simp [isArr])]
  simp only [asArrList]
  rw [oneOfIds_pure B 0 branches hobj]
  dsimp only
  rw [hmed]
  dsimp only
  rw [hasNoDependencies_of branches hobj hnodep]
  dsimp only
  rw [validateSchemaMap_lift f inst ctx branches]
  dsimp only
  unfold oneOfDecision oneOfGenericMessage
  by_cases h0 : ((branches.map (fun b => f inst b ctx)).filter VR.valid).length = 0
  · by_cases he1 :
      (((branches.map (fun b => f inst b ctx)).map VR.errors).flatten).length = 1
    · simp [h0, he1]
    · simp [h0, he1]
  · by_cases h1 : ((branches.map (fun b => f inst b ctx)).filter VR.valid).length = 1
    · simp [h0, h1]
    · simp [h0, h1]

/-- C1 counterexample: a one-branch dependency-free `oneOf` whose only
branch fails with exactly one error.  The claim demands the aggregate
failure carrying that error, but the validator reports no error at all
(zero branches validated, yet `validCount` is overwritten with the error
count 1). -/
theorem claim_C1_counterexample :
    jsGet c1Schema "oneOf" = .arr [c1Branch] ∧
    (typeOf (jsGet c1Branch "dependencies") != "object") = true ∧
    validateOneOf (validate builtinsModel 10) builtinsModel (.str "x") c1Schema rootCtx =
      .ok .nullOut ∧
    validate builtinsModel 10 (.str "x") c1Branch rootCtx =
      .ok ⟨[⟨"", "is not one of enum values: a"⟩]⟩ ∧
    (VR.mk [⟨"", "is not one of enum values: a"⟩]).valid = false :=
  ⟨rfl, rfl, rfl, rfl, rfl⟩

/-- Witness for C1 (amended) at a two-branch dependency-free `oneOf` with
exactly one validating branch. -/
theorem claim_C1_witness :
    validateOneOf (liftVS c1WitnessF) builtinsModel (.str "x") c1wSchema rootCtx =
      .ok .nullOut := by
  rw [claim_C1_amended c1WitnessF builtinsModel (.str "x") c1wSchema
    [c1wBranchOk, c1wBranchBad] rootCtx rfl rfl rfl rfl rfl]
  rfl

/-- `getLast?` of a cons, phrased as the fold the MED loop computes. -/
theorem lastOfConsEq (a : VR) (l : List VR) :
    (a :: l).getLast? = (match l.getLast? with
      | some r => some r
      | none => some a) := by
  cases l with
  | nil => rfl
  | cons b l2 =>
    rw [List.getLast?_cons_cons]
    cases hg : (b :: l2).getLast? with
    | some r => rfl
    | none => exact absurd (List.getLast?_eq_none_iff.mp hg) (by simp)

/-- The mutual-exclusion branch loop, characterized for a pure sub-schema
validator: `validCount` counts the valid branches, and the candidate
result is the last failing branch none of whose errors is
dependency-related (the initial candidate otherwise). -/
theorem oneOfMEDLoop_lift (f : JSValue → JSValue → Ctx → VR)
    (inst : JSValue) (ctx : Ctx) :
    ∀ (branches : List JSValue) (vrOpt : Option VR) (n : Nat),
      oneOfMEDLoop (liftVS f) inst ctx branches vrOpt n =
        .ok ((match ((branches.map (fun b => f inst b ctx)).filter
            (fun r => !r.valid && !r.errors.any isDependencyError)).getLast? with
          | some r => some r
          | none => vrOpt),
          n + ((branches.map (fun b => f inst b ctx)).filter VR.valid).length)
  | [], vrOpt, n => by simp [oneOfMEDLoop]
  | b :: rest, vrOpt, n => by
    simp only [oneOfMEDLoop, liftVS]
    by_cases hv : (f inst b ctx).valid
    · rw [if_neg (by simp [hv])]
      rw [oneOfMEDLoop_lift f inst ctx rest vrOpt (n + 1)]
      simp only [List.map_cons, List.filter_cons, hv]
      simp [Nat.add_assoc, Nat.add_comm 1]
    · rw [if_pos (by simp [hv])]
      by_cases hd : (f inst b ctx).errors.any isDependencyError
      · rw [if_neg (by simp [hd])]
        rw [oneOfMEDLoop_lift f inst ctx rest vrOpt n]
        simp only [List.map_cons, List.filter_cons, hv, hd]
        simp
      · rw [if_pos (by simp [hv, hd])]
        rw [oneOfMEDLoop_lift f inst ctx rest (some (f inst b ctx)) n]
        simp only [List.map_cons, List.filter_cons]
        rw [if_pos (show (!(f inst b ctx).valid &&
              !(f inst b ctx).errors.any isDependencyError) = true by simp [hv, hd]),
          if_neg (show ¬((f inst b ctx).valid = true) from hv)]
        rw [lastOfConsEq]
        cases hg : (List.filter (fun r => !r.valid && !r.errors.any isDependencyError)
            (List.map (fun b => f inst b ctx) rest)).getLast? <;> simp [hg]

/-- C2 (amended): for a `oneOf` (object branches) satisfying the
mutual-exclusion litmus test and a defined instance: a branch whose errors
include ANY dependency-related error never disqualifies the instance; only
a branch failing with NO dependency-related error at all becomes the
candidate result; when the instance is ultimately invalid the reported
result is the last such branch's own validation result, and the generic
message when every failing branch had a dependency-related error. -/
theorem claim_C2_amended (f : JSValue → JSValue → Ctx → VR) (B : Builtins)
    (inst schema : JSValue) (branches : List JSValue) (ctx : Ctx)
    (hundef : isUndefined inst = false)
    (hbr : jsGet schema "oneOf" = .arr branches)
    (hobj : branches.all isObjType = true)
    (hmed : hasMutuallyExclusiveDependencies branches = .ok true) :
    validateOneOf (liftVS f) B inst schema ctx =
      .ok (
        if ((branches.map (fun b => f inst b ctx)).filter VR.valid).length == 1 then
          .nullOut
        else match ((branches.map (fun b => f inst b ctx)).filter
            (fun r => !r.valid && !r.errors.any isDependencyError)).getLast? with
          | some r => .vrOut r
          | none => .strOut (oneOfGenericMessage B branches)) := by
  unfold validateOneOf
  rw [hundef, hbr]
  rw [if_neg (show ¬(false = true) by simp)]
  rw [if_neg (show ¬((!isArr (.arr branches)) = true) by simp [isArr])]
  simp only [asArrList]
  rw [oneOfIds_pure B 0 branches hobj]
  dsimp only
  rw [hmed]
  dsimp only
  rw [oneOfMEDLoop_lift f inst ctx branches none 0]
  dsimp only
  unfold oneOfDecision oneOfGenericMessage
  cases hg : ((branches.map (fun b => f inst b ctx)).filter
      (fun r => !r.valid && !r.errors.any isDependencyError)).getLast? with
  | some r =>
    by_cases h1 : ((branches.map (fun b => f inst b ctx)).filter VR.valid).length = 1
    · simp [hg, h1]
    · simp [hg, h1]
  | none =>
    by_cases h1 : ((branches.map (fun b => f inst b ctx)).filter VR.valid).length = 1
    · simp [hg, h1]
    · simp [hg, h1]

/-- C2 counterexample: a litmus-passing two-branch `oneOf` where both
branches fail with a mix of dependency and non-dependency errors.  Each
branch fails with at least one non-dependency error, so the claim demands
that branch's own result be reported; the validator reports the generic
message instead (mixed-error branches are skipped). -/
theorem claim_C2_counterexample :
    hasMutuallyExclusiveDependencies [c2Branch1, c2Branch2] = .ok true ∧
    validateOneOf (validate builtinsModel 10) builtinsModel c2Inst c2Schema rootCtx =
      .ok (.strOut "is not exactly one from [subschema 0],[subschema 1]") ∧
    validate builtinsModel 10 c2Inst c2Branch1 rootCtx = .ok c2Result1 ∧
    validate builtinsModel 10 c2Inst c2Branch2 rootCtx = .ok c2Result2 ∧
    c2Result1.valid = false ∧ c2Result2.valid = false ∧
    c2Result1.errors.any (fun e => !isDependencyError e) = true ∧
    c2Result2.errors.any (fun e => !isDependencyError e) = true :=
  ⟨rfl, rfl, rfl, rfl, rfl, rfl, rfl, rfl⟩

/-- Witness for C2 (amended): the dependency-failing branch is skipped and
the branch failing with only a non-dependency error is reported. -/
theorem claim_C2_witness :
    validateOneOf (liftVS c2WitnessF) builtinsModel (.str "i") c2wSchema rootCtx =
      .ok (.vrOut ⟨[⟨"", "bad value"⟩]⟩) := by
  rw [claim_C2_amended c2WitnessF builtinsModel (.str "i") c2wSchema
    [medWitnessBranch1, medWitnessBranch2] rootCtx rfl rfl rfl rfl]
  rfl

/-- A successful throwing property access returns the plain access. -/
theorem jsGetThrow_ok (v : JSValue) (k : String) (d : JSValue)
    (h : jsGetThrow v k = .ok d) : d = jsGet v k := by
  cases v <;> simp [jsGetThrow] at h <;> (try exact h.symm)

/-- `medKeyCond` with the (deterministic) `removeNot` results plugged
in. -/
theorem medKeyCond_iff_of (d1 d2 : JSValue) (k : String) (b1 b2 : Bool)
    (s1 s2 : JSValue)
    (hr1 : removeNot (cloneDeep (jsGet d1 k)) = .ok (b1, s1))
    (hr2 : removeNot (cloneDeep (jsGet d2 k)) = .ok (b2, s2)) :
    medKeyCond d1 d2 k ↔
      (truthy (jsGet d2 k) = true ∧ (b1 = true ∨ b2 = true) ∧
        isEqualJS s1 s2 = true) := by
  unfold medKeyCond
  constructor
  · rintro ⟨ht, b1', s1', b2', s2', e1, e2, hor, heq⟩
    obtain ⟨hb1, hs1⟩ : b1 = b1' ∧ s1 = s1' := by
      simpa using hr1.symm.trans e1
    obtain ⟨hb2, hs2⟩ : b2 = b2' ∧ s2 = s2' := by
      simpa using hr2.symm.trans e2
    subst hb1; subst hs1; subst hb2; subst hs2
    exact ⟨ht, hor, heq⟩
  · rintro ⟨ht, hor, heq⟩
    exact ⟨ht, b1, s1, b2, s2, hr1, hr2, hor, heq⟩

/-- The inner per-key test succeeds exactly on `medKeyCond`. -/
theorem areSub_ok_iff (d1 d2 : JSValue) (k : String) (bb : Bool)
    (h : areSubschemasMutuallyExclusive d1 d2 k = .ok bb) :
    bb = true ↔ medKeyCond d1 d2 k := by
  unfold areSubschemasMutuallyExclusive at h
  by_cases ht : truthy (jsGet d2 k) = true
  · rw [if_neg (by simp [ht])] at h
    cases hr1 : removeNot (cloneDeep (jsGet d1 k)) with
    | error e => rw [hr1] at h; cases h
    | ok p1 =>
      cases hr2 : removeNot (cloneDeep (jsGet d2 k)) with
      | error e => rw [hr1, hr2] at h; cases h
      | ok p2 =>
        obtain ⟨b1, s1⟩ := p1
        obtain ⟨b2, s2⟩ := p2
        rw [hr1, hr2] at h
        dsimp only at h
        rw [medKeyCond_iff_of d1 d2 k b1 b2 s1 s2 hr1 hr2]
        by_cases hb : (!b1 && !b2) = true
        · rw [if_pos hb] at h
          obtain rfl : bb = false := by
            simpa using h.symm
          simp only [Bool.and_eq_true, Bool.not_eq_true'] at hb
          constructor
          · intro hc; exact absurd hc (by simp)
          · rintro ⟨-, hor, -⟩
            rcases hor with h1 | h2 <;> simp_all
        · rw [if_neg hb] at h
          obtain rfl : bb = isEqualJS s1 s2 := by
            simpa using h.symm
          constructor
          · intro heq
            refine ⟨ht, ?_, heq⟩
            by_cases hb1 : b1 = true
            · exact Or.inl hb1
            · by_cases hb2 : b2 = true
              · exact Or.inr hb2
              · have hb1f : b1 = false := by simpa using hb1
                have hb2f : b2 = false := by simpa using hb2
                exact absurd (by simp [hb1f, hb2f]) hb
          · rintro ⟨-, -, heq⟩; exact heq
  · rw [if_pos (by simp [ht])] at h
    obtain rfl : bb = false := by simpa using h.symm
    constructor
    · intro hc; exact absurd hc (by simp)
    · rintro ⟨ht2, -⟩; exact absurd ht2 ht

/-- The short-circuiting `every` over dependency keys succeeds exactly
when every key satisfies `medKeyCond`. -/
theorem medEvery_ok_iff (d1 d2 : JSValue) :
    ∀ (keys : List String) (bb : Bool), medEvery d1 d2 keys = .ok bb →
      (bb = true ↔ ∀ k ∈ keys, medKeyCond d1 d2 k)
  | [], bb, h => by
    obtain rfl : bb = true := by simpa using (show Except.ok true = .ok bb from h).symm
    simp
  | k :: ks, bb, h => by
    simp only [medEvery] at h
    cases ha : areSubschemasMutuallyExclusive d1 d2 k with
    | error e => rw [ha] at h; cases h
    | ok b0 =>
      rw [ha] at h
      cases b0 with
      | false =>
        dsimp only at h
        obtain rfl : bb = false := by simpa using h.symm
        have hk := areSub_ok_iff d1 d2 k false ha
        constructor
        · intro hc; exact absurd hc (by simp)
        · intro hall
          have := hall k (by simp)
          have hfalse : (false : Bool) = true := hk.mpr this
          exact absurd hfalse (by simp)
      | true =>
        dsimp only at h
        have ih := medEvery_ok_iff d1 d2 ks bb h
        have hk : medKeyCond d1 d2 k := (areSub_ok_iff d1 d2 k true ha).mp rfl
        rw [ih]
        constructor
        · intro hall k2 hk2
          rcases List.mem_cons.mp hk2 with rfl | hmem
          · exact hk
          · exact hall k2 hmem
        · intro hall k2 hk2
          exact hall k2 (List.mem_cons_of_mem _ hk2)

/-- C3 (amended): a completing run of the mutual-exclusion detection
returns true exactly when the `oneOf` has exactly two branches, both
`dependencies` values are truthy, and every own key of the FIRST branch's
dependencies maps to a truthy value in the second branch's dependencies
and passes the not-strip comparison on deep clones. -/
theorem claim_C3_amended (oneOf : List JSValue) (b : Bool)
    (h : hasMutuallyExclusiveDependencies oneOf = .ok b) :
    b = true ↔ c3AmendedCond oneOf := by
  unfold hasMutuallyExclusiveDependencies at h
  cases hst : hasMutuallyExclusiveDependenciesSt oneOf with
  | error e => rw [hst] at h; cases h
  | ok p =>
    obtain ⟨b0, l⟩ := p
    rw [hst] at h
    dsimp only at h
    obtain rfl : b = b0 := by simpa using h.symm
    unfold hasMutuallyExclusiveDependenciesSt at hst
    unfold c3AmendedCond
    by_cases hlen : oneOf.length = 2
    case neg =>
      rw [if_pos (by simp [hlen])] at hst
      obtain ⟨rfl, -⟩ : false = b ∧ oneOf = l := by simpa using hst
      constructor
      · intro hc; exact absurd hc (by simp)
      · rintro ⟨hl, -⟩; exact absurd hl hlen
    case pos =>
      rw [if_neg (by simp [hlen])] at hst
      cases hg1 : jsGetThrow (oneOf.getD 0 .undefined) "dependencies" with
      | error e => rw [hg1] at hst; cases hst
      | ok d1 =>
        rw [hg1] at hst
        dsimp only at hst
        obtain rfl : d1 = jsGet (oneOf.getD 0 .undefined) "dependencies" :=
          jsGetThrow_ok _ _ _ hg1
        cases ht1 : truthy (jsGet (oneOf.getD 0 .undefined) "dependencies") with
        | false =>
          rw [if_pos (by rw [ht1]; rfl)] at hst
          obtain ⟨rfl, -⟩ : false = b ∧ oneOf = l := by simpa using hst
          constructor
          · intro hc; exact absurd hc (by simp)
          · rintro ⟨-, ht, -⟩; exact ht
        | true =>
          rw [if_neg (by rw [ht1]; simp)] at hst
          cases hg2 : jsGetThrow (oneOf.getD 1 .undefined) "dependencies" with
          | error e => rw [hg2] at hst; cases hst
          | ok d2 =>
            rw [hg2] at hst
            dsimp only at hst
            obtain rfl : d2 = jsGet (oneOf.getD 1 .undefined) "dependencies" :=
              jsGetThrow_ok _ _ _ hg2
            cases ht2 : truthy (jsGet (oneOf.getD 1 .undefined) "dependencies") with
            | false =>
              rw [if_pos (by rw [ht2]; rfl)] at hst
              obtain ⟨rfl, -⟩ : false = b ∧ oneOf = l := by simpa using hst
              constructor
              · intro hc; exact absurd hc (by simp)
              · rintro ⟨-, -, ht, -⟩; exact ht
            | true =>
              rw [if_neg (by rw [ht2]; simp)] at hst
              cases hme : medEvery (jsGet (oneOf.getD 0 .undefined) "dependencies")
                  (jsGet (oneOf.getD 1 .undefined) "dependencies")
                  (jsKeys (jsGet (oneOf.getD 0 .undefined) "dependencies")) with
              | error e => rw [hme] at hst; cases hst
              | ok bm =>
                rw [hme] at hst
                obtain ⟨hbm, -⟩ : bm = b ∧ oneOf = l := by simpa using hst
                have hiff := medEvery_ok_iff _ _ _ _ hme
                rw [← hbm]
                constructor
                · intro hb
                  exact ⟨hlen, rfl, rfl, hiff.mp hb⟩
                · rintro ⟨-, -, -, hall⟩
                  exact hiff.mpr hall

/-- C3 counterexample: the first branch's dependencies carry a key `b`
absent from the second branch's, while the shared key `a` passes the
litmus comparison.  The claimed shape (quantifying over SHARED keys only)
holds, yet the detection rejects the pair and routes it to the generic
path. -/
theorem claim_C3_counterexample :
    c3SpecShape [c3xBranch1, c3xBranch2] = true ∧
    hasMutuallyExclusiveDependencies [c3xBranch1, c3xBranch2] = .ok false :=
  ⟨rfl, rfl⟩

/-- Witness for C3 (amended): the test-suite pair satisfies the amended
characterization. -/
theorem claim_C3_witness : c3AmendedCond [medWitnessBranch1, medWitnessBranch2] :=
  (claim_C3_amended [medWitnessBranch1, medWitnessBranch2] true rfl).mp rfl
